import Mathlib

/-!
# Modbus bus manager of simpleiot (`node/modbus.go`)

A shallow embedding of `node/modbus.go` together with the constants of
`data/schema.go`.

Conventions of the embedding.

* A Go `float64` is an exact rational (`ℚ`).  NaN, infinities and rounding
  are outside the model; the numeric statements below are made at values where
  float64 arithmetic is exact (small integers, `scale = 1`, `offset = 0`) or
  are independent of the arithmetic.
* A Go `int` is an `Int`; the conversions of an int, `byte(..)` and
  `uint16(..)`, reduce modulo the width; the conversions of a float64 are
  described at `floatToInt`, `floatToUint16`, `floatToUint32`, `floatToInt32`.
* A pointer that may be nil is an `Option`; dereferencing `none` is the
  outcome `panic`.
* Everything outside the process (serial ports, the remote Modbus device, the
  node database, the NATS connection) is an `Env` of oracles.  Every
  interaction is appended to a chronological trace of `Event`s and every
  oracle sees the trace so far, so any deterministic behaviour of the outside
  world is an `Env`.
* Packages of the repository whose source is not at hand (`data` point
  helpers, `modbus` register store and codecs) are modelled from the
  specification and marked as such.
-/

namespace SimpleIot

/-! ## `data/schema.go` -/

def PointTypeScale : String := "scale"
def PointTypeOffset : String := "offset"
def PointTypeValue : String := "value"
def PointTypeValueSet : String := "valueSet"
def PointTypeID : String := "id"
def PointTypeAddress : String := "address"
def PointTypeDebug : String := "debug"

def NodeTypeModbus : String := "modbus"
def PointTypeClientServer : String := "clientServer"
def PointValueClient : String := "client"
def PointValueServer : String := "server"
def PointTypePort : String := "port"
def PointTypeBaud : String := "baud"

def NodeTypeModbusIO : String := "modbusIo"

def PointTypeModbusIOType : String := "modbusIoType"
def PointValueModbusDiscreteInput : String := "modbusDiscreteInput"
def PointValueModbusCoil : String := "modbusCoil"
def PointValueModbusInputRegister : String := "modbusInputRegister"
def PointValueModbusHoldingRegister : String := "modbusHoldingRegister"

def PointTypeDataFormat : String := "dataFormat"
def PointValueUINT16 : String := "uint16"
def PointValueINT16 : String := "int16"
def PointValueUINT32 : String := "uint32"
def PointValueINT32 : String := "int32"
def PointValueFLOAT32 : String := "float32"

/-! ## Go conversions -/

/-- Go `int(f)` for a float64 `f`: truncation toward zero (for values within
the int64 range; beyond it Go leaves the result to the implementation). -/
def floatToInt (f : ℚ) : Int := Int.tdiv f.num f.den

/-- Go `uint16(f)` for a float64 `f`: truncation toward zero.  Outside
`0..65535` Go leaves the result to the implementation; this is the amd64
result: the value is converted to an int32 first, of which the low 16 bits are
kept, and a value outside the int32 range converts to `-2^31`, whose low 16
bits are 0. -/
def floatToUint16 (f : ℚ) : Nat :=
  if -2147483648 ≤ floatToInt f ∧ floatToInt f < 2147483648
  then (floatToInt f % 65536).toNat else 0

/-- Go `uint32(f)` for a float64 `f`: truncation toward zero, then the low 32
bits (the amd64 result for values within the int64 range; outside
`0..2^32 - 1` Go leaves the result to the implementation). -/
def floatToUint32 (f : ℚ) : Nat := (floatToInt f % 4294967296).toNat

/-- Go `int32(f)` for a float64 `f`: truncation toward zero; a value outside
`-2^31 .. 2^31 - 1`, which Go leaves to the implementation, converts to
`-2^31` (the amd64 result). -/
def floatToInt32 (f : ℚ) : Int :=
  if -2147483648 ≤ floatToInt f ∧ floatToInt f < 2147483648
  then floatToInt f else -2147483648

/-- Go `byte(i)` for an int `i`. -/
def intToByte (i : Int) : Nat := (i % 256).toNat

/-- Go `uint16(i)` for an int `i`. -/
def intToUint16 (i : Int) : Nat := (i % 65536).toNat

/-! ## `data` package: nodes and points -/

/-- Modelled from the spec: the point type of package `data` (file
`data/point.go` is not at hand).  A point has a type tag, an index, a text and
a numeric value; it is addressed by (type, index). -/
structure Point where
  Typ : String
  Index : Int
  Text : String
  Value : ℚ
deriving DecidableEq, Repr

/-- Modelled from the spec: a node of the configuration store with its
identity, its type tag and its ordered list of points. -/
structure NodeEdge where
  ID : String
  Typ : String
  Points : List Point
deriving DecidableEq, Repr

/-- Modelled from the spec: first point of the list with the given type and
index (`data.Points` lookup; the id argument is always empty in this file). -/
def Points.find (ps : List Point) (typ : String) (index : Int) : Option Point :=
  ps.find? (fun p => p.Typ == typ && p.Index == index)

/-- Modelled from the spec: `Points.Text(id, typ, index)` returns the text of
the addressed point and whether it exists. -/
def Points.Text (ps : List Point) ( _id : String) (typ : String) (index : Int) :
    String × Bool :=
  match Points.find ps typ index with
  | some p => (p.Text, true)
  | none => ("", false)

/-- Modelled from the spec: `Points.Value(id, typ, index)` returns the numeric
value of the addressed point and whether it exists. -/
def Points.Value (ps : List Point) ( _id : String) (typ : String) (index : Int) :
    ℚ × Bool :=
  match Points.find ps typ index with
  | some p => (p.Value, true)
  | none => (0, false)

/-- Modelled from the spec: `Points.ValueInt(id, typ, index)` is `Value`
converted to an int. -/
def Points.ValueInt (ps : List Point) ( _id : String) (typ : String) (index : Int) :
    Int × Bool :=
  match Points.find ps typ index with
  | some p => (floatToInt p.Value, true)
  | none => (0, false)

/-! ## `modbus` package: register store and codecs -/

/-- Modelled from the spec: `modbus.Uint32ToRegs` on one value; the first
register is the more significant half. -/
def Uint32ToRegs (v : Nat) : List Nat := [v / 65536 % 65536, v % 65536]

/-- Modelled from the spec: `modbus.RegsToUint32`, one value per register
pair. -/
def RegsToUint32 : List Nat → List Nat
  | hi :: lo :: rest => (hi * 65536 + lo) :: RegsToUint32 rest
  | _ => []

/-- Modelled from the spec: `modbus.Int32ToRegs` on one value (two's
complement). -/
def Int32ToRegs (v : Int) : List Nat := Uint32ToRegs (v % 4294967296).toNat

/-- The signed reading of a 32-bit word. -/
def uint32ToInt32 (u : Nat) : Int :=
  if u < 2147483648 then (u : Int) else (u : Int) - 4294967296

/-- Modelled from the spec: `modbus.RegsToInt32`. -/
def RegsToInt32 (regs : List Nat) : List Int := (RegsToUint32 regs).map uint32ToInt32

/-- Modelled from the spec: the server-side register store of package
`modbus` (`modbus/regs.go` is not at hand): a mapping from address to 16-bit
register cell and a mapping from address to coil bit. -/
structure Regs where
  regs : List (Int × Nat)
  coils : List (Int × Bool)
deriving DecidableEq, Repr

/-- Modelled from the spec: `Regs.ReadReg`; an unmapped address is an error. -/
def Regs.ReadReg (r : Regs) (address : Int) : Except String Nat :=
  match r.regs.lookup address with
  | some v => .ok v
  | none => .error "register not found"

/-- Modelled from the spec: `Regs.AddReg(address, count)` creates the cells
`address .. address + count - 1` that do not exist yet, with content 0. -/
def Regs.AddReg (r : Regs) (address : Int) : Nat → Regs
  | 0 => r
  | n + 1 =>
    let r1 := Regs.AddReg r address n
    let a := address + (n : Int)
    match r1.regs.lookup a with
    | some _ => r1
    | none => { r1 with regs := r1.regs ++ [(a, 0)] }

/-- Replace the content of the first cell with key `a`. -/
def setCell {β : Type} (a : Int) (v : β) : List (Int × β) → List (Int × β)
  | [] => []
  | (k, w) :: rest => if k == a then (k, v) :: rest else (k, w) :: setCell a v rest

/-- Modelled from the spec: `Regs.WriteReg`; writing an unmapped address is an
error and leaves the store as it is. -/
def Regs.WriteReg (r : Regs) (address : Int) (value : Nat) : Regs × Except String Unit :=
  match r.regs.lookup address with
  | some _ => ({ r with regs := setCell address (value % 65536) r.regs }, .ok ())
  | none => (r, .error "register not found")

/-- Write the registers of a list to consecutive addresses, stopping at the
first error. -/
def Regs.writeRegs (r : Regs) (address : Int) : List Nat → Regs × Except String Unit
  | [] => (r, .ok ())
  | v :: vs =>
    match Regs.WriteReg r address v with
    | (r1, .ok _) => Regs.writeRegs r1 (address + 1) vs
    | (r1, .error e) => (r1, .error e)

/-- Modelled from the spec: `Regs.ReadRegUint32` reads the cells `address`
and `address + 1`, the first being the more significant half. -/
def Regs.ReadRegUint32 (r : Regs) (address : Int) : Except String Nat :=
  match Regs.ReadReg r address with
  | .error e => .error e
  | .ok hi =>
    match Regs.ReadReg r (address + 1) with
    | .error e => .error e
    | .ok lo => .ok (hi * 65536 + lo)

/-- Modelled from the spec: `Regs.WriteRegUint32`. -/
def Regs.WriteRegUint32 (r : Regs) (address : Int) (value : Nat) :
    Regs × Except String Unit :=
  Regs.writeRegs r address (Uint32ToRegs value)

/-- Modelled from the spec: `Regs.ReadRegInt32`. -/
def Regs.ReadRegInt32 (r : Regs) (address : Int) : Except String Int :=
  match Regs.ReadRegUint32 r address with
  | .error e => .error e
  | .ok u => .ok (uint32ToInt32 u)

/-- Modelled from the spec: `Regs.WriteRegInt32`. -/
def Regs.WriteRegInt32 (r : Regs) (address : Int) (value : Int) :
    Regs × Except String Unit :=
  Regs.writeRegs r address (Int32ToRegs value)

/-- Modelled from the spec: `Regs.AddCoil` creates the coil cell when it does
not exist yet, with content false. -/
def Regs.AddCoil (r : Regs) (address : Int) : Regs :=
  match r.coils.lookup address with
  | some _ => r
  | none => { r with coils := r.coils ++ [(address, false)] }

/-- Modelled from the spec: `Regs.WriteCoil`. -/
def Regs.WriteCoil (r : Regs) (address : Int) (value : Bool) : Regs × Except String Unit :=
  match r.coils.lookup address with
  | some _ => ({ r with coils := setCell address value r.coils }, .ok ())
  | none => (r, .error "coil not found")

/-- Modelled from the spec: `Regs.ReadCoil`. -/
def Regs.ReadCoil (r : Regs) (address : Int) : Except String Bool :=
  match r.coils.lookup address with
  | some v => .ok v
  | none => .error "coil not found"

/-! ## The outside world -/

/-- One interaction of the process with the outside world. -/
inductive Event where
  | portClose (handle : Nat)
  | serialOpen (portName : String) (baud : Int)
  | listen (unitId : Nat) (debugLevel : Int)
  | sendPoint (nodeID pointType : String) (value : ℚ)
  | readCoils (id address count : Nat)
  | readDiscreteInputs (id address count : Nat)
  | readHoldingRegs (id address count : Nat)
  | readInputRegs (id address count : Nat)
  | writeSingleCoil (id address : Nat) (value : Bool)
  | writeSingleReg (id address value : Nat)
  | nodeChildren (parent typ : String)
deriving DecidableEq, Repr

/-- The outside world and the library functions taken as given.  Every oracle
receives the trace of the events before the call. -/
structure Env where
  /-- whether `serial.Open(portName, mode)` succeeds -/
  serialOpen : List Event → String → Int → Except String Unit
  /-- result of `nats.SendPoint` -/
  sendPoint : List Event → String → String → ℚ → Except String Unit
  /-- result of `client.ReadCoils(id, address, count)` -/
  readCoils : List Event → Nat → Nat → Nat → Except String (List Bool)
  /-- result of `client.ReadDiscreteInputs(id, address, count)` -/
  readDiscreteInputs : List Event → Nat → Nat → Nat → Except String (List Bool)
  /-- result of `client.ReadHoldingRegs(id, address, count)` -/
  readHoldingRegs : List Event → Nat → Nat → Nat → Except String (List Nat)
  /-- result of `client.ReadInputRegs(id, address, count)` -/
  readInputRegs : List Event → Nat → Nat → Nat → Except String (List Nat)
  /-- result of `client.WriteSingleCoil(id, address, value)` -/
  writeSingleCoil : List Event → Nat → Nat → Bool → Except String Unit
  /-- result of `client.WriteSingleReg(id, address, value)` -/
  writeSingleReg : List Event → Nat → Nat → Nat → Except String Unit
  /-- result of `db.NodeChildren(parent, typ)` -/
  nodeChildren : List Event → String → String → Except String (List NodeEdge)
  /-- the id of the root node, `db.RootNodeID()` -/
  rootNodeID : String
  /-- `data.FloatToBool` -/
  FloatToBool : ℚ → Bool
  /-- `data.BoolToFloat` -/
  BoolToFloat : Bool → ℚ
  /-- `float32(f)` of a float64 followed by its IEEE-754 bit pattern -/
  float32bits : ℚ → Nat
  /-- the float64 value of the float32 with the given bit pattern -/
  float32frombits : Nat → ℚ

/-- How a call ends: it returns nil, returns an error, or the process panics
on a nil pointer. -/
inductive Outcome where
  | ok
  | error (msg : String)
  | panic
deriving DecidableEq, Repr

/-- The outcome of a call returning a value and an error. -/
inductive Result (α : Type) where
  | ok (a : α)
  | error (msg : String)
  | panic
deriving DecidableEq, Repr

/-- The state left by a call, the trace after it, and how it ended. -/
structure Step (σ : Type) where
  state : σ
  trace : List Event
  res : Outcome
deriving DecidableEq, Repr

/-! ## `Modbus`: one bus endpoint -/

/-- An open serial port (`*respreader.ReadWriteCloser`), identified by the
length of the trace when it was opened. -/
structure Port where
  handle : Nat
deriving DecidableEq, Repr

/-- The client engine `*modbus.Client` created by `modbus.NewClient`. -/
structure Client where
  port : Port
  debug : Int
deriving DecidableEq, Repr

/-- The server engine `*modbus.Server` created by `modbus.NewServer`. -/
structure Server where
  id : Nat
  port : Port
  Regs : Regs
deriving DecidableEq, Repr

/-- `type Modbus struct`; the NATS connection `nc` is part of the `Env`.
`ioInitialized` lists the keys the Go map sends to true. -/
structure Modbus where
  busType : String
  id : Int
  portName : String
  baud : Int
  port : Option Port
  client : Option Client
  server : Option Server
  debugLevel : Int
  ioInitialized : List String
deriving DecidableEq, Repr

/-- `NewModbus`: a new bus from a node. -/
def NewModbus (node : NodeEdge) : Except String Modbus :=
  let (busType, ok) := Points.Text node.Points "" PointTypeClientServer 0
  if !ok then .error "Must define modbus client/server" else
  let (portName, ok) := Points.Text node.Points "" PointTypePort 0
  if !ok then .error "Must define modbus port name" else
  let (baud, ok) := Points.Value node.Points "" PointTypeBaud 0
  if !ok then .error "Must define modbus baud" else
  .ok { busType := busType, id := 0, portName := portName, baud := floatToInt baud,
        port := none, client := none, server := none, debugLevel := 0,
        ioInitialized := [] }

/-- The part of `CheckPort` under `if bus.port == nil`: open the serial port
and create the engine of the role. -/
def CheckPort.openPort (env : Env) (bus : Modbus) (t : List Event) : Step Modbus :=
  match bus.port with
  | some _ => { state := bus, trace := t, res := .ok }
  | none =>
    let t1 := t ++ [Event.serialOpen bus.portName bus.baud]
    match env.serialOpen t bus.portName bus.baud with
    | .error e => { state := bus, trace := t1, res := .error e }
    | .ok _ =>
      let port : Port := { handle := t.length }
      let bus1 := { bus with port := some port }
      if bus1.busType == PointValueServer then
        { state := { bus1 with
                     client := none
                     server := some { id := intToByte bus1.id, port := port,
                                      Regs := { regs := [], coils := [] } } }
          trace := t1 ++ [Event.listen (intToByte bus1.id) bus1.debugLevel]
          res := .ok }
      else if bus1.busType == PointValueClient then
        { state := { bus1 with
                     server := none
                     client := some { port := port, debug := bus1.debugLevel } }
          trace := t1
          res := .ok }
      else
        { state := bus1, trace := t1, res := .ok }

/-- The part of `CheckPort` that compares the configuration read from the node
with the held one; on a difference the open port is closed and cleared and the
new values are adopted. -/
def CheckPort.adopt (bus : Modbus) (busType portName : String) (baud : ℚ) (id : Int)
    (debugLevel : ℚ) (t : List Event) : Modbus × List Event :=
  if busType != bus.busType || portName != bus.portName ||
      floatToInt baud != bus.baud || id != bus.id ||
      floatToInt debugLevel != bus.debugLevel then
    let (port, t1) :=
      match bus.port with
      | some p => ((none : Option Port), t ++ [Event.portClose p.handle])
      | none => (none, t)
    ({ bus with port := port, busType := busType, portName := portName,
                baud := floatToInt baud, id := id,
                debugLevel := floatToInt debugLevel }, t1)
  else (bus, t)

/-- `Modbus.CheckPort`: verifies the serial port setup is correct for the
bus. -/
def CheckPort (env : Env) (bus : Modbus) (node : NodeEdge) (t : List Event) : Step Modbus :=
  let (busType, ok) := Points.Text node.Points "" PointTypeClientServer 0
  if !ok then { state := bus, trace := t, res := .error "Must define modbus client/server" } else
  let (portName, ok) := Points.Text node.Points "" PointTypePort 0
  if !ok then { state := bus, trace := t, res := .error "Must define modbus port name" } else
  let (baud, ok) := Points.Value node.Points "" PointTypeBaud 0
  if !ok then { state := bus, trace := t, res := .error "Must define modbus baud" } else
  let (debugLevel, _) := Points.Value node.Points "" PointTypeDebug 0
  let idOrErr : Option Int :=
    if busType == PointValueServer then
      let (idF, ok) := Points.Value node.Points "" PointTypeID 0
      if !ok then none else some (floatToInt idF)
    else some bus.id
  match idOrErr with
  | none => { state := bus, trace := t, res := .error "Must define modbus ID for server bus" }
  | some id =>
    let (bus1, t1) := CheckPort.adopt bus busType portName baud id debugLevel t
    CheckPort.openPort env bus1 t1

/-- `Modbus.SendPoint`: sends a point over nats. -/
def SendPoint (env : Env) (nodeID pointType : String) (value : ℚ) (t : List Event) :
    List Event × Except String Unit :=
  (t ++ [Event.sendPoint nodeID pointType value], env.sendPoint t nodeID pointType value)

/-! ## `ModbusIO`: one IO of a bus -/

/-- `type ModbusIO struct`. -/
structure ModbusIO where
  nodeID : String
  description : String
  id : Int
  address : Int
  modbusType : String
  modbusDataType : String
  scale : ℚ
  offset : ℚ
  value : ℚ
  valueSet : ℚ
deriving DecidableEq, Repr

/-- `regCount`: the number of registers of a data format. -/
def regCount (regType : String) : Nat :=
  if regType == PointValueUINT16 || regType == PointValueINT16 then 1
  else if regType == PointValueUINT32 || regType == PointValueINT32 ||
      regType == PointValueFLOAT32 then 2
  else 2

/-- `Modbus.ReadReg`: reads a value from a register of the server store.  The
float64 product and sum are exact rational operations here; they agree with
the code where float64 arithmetic is exact, as at scale 1 and offset 0 on
integers. -/
def ReadReg (env : Env) (bus : Modbus) (io : ModbusIO) : Result ℚ :=
  if io.modbusDataType == PointValueUINT16 || io.modbusDataType == PointValueINT16 then
    match bus.server with
    | none => .panic
    | some s =>
      match s.Regs.ReadReg io.address with
      | .error e => .error e
      | .ok v => .ok ((v : ℚ) * io.scale + io.offset)
  else if io.modbusDataType == PointValueUINT32 then
    match bus.server with
    | none => .panic
    | some s =>
      match s.Regs.ReadRegUint32 io.address with
      | .error e => .error e
      | .ok v => .ok ((v : ℚ) * io.scale + io.offset)
  else if io.modbusDataType == PointValueINT32 then
    match bus.server with
    | none => .panic
    | some s =>
      match s.Regs.ReadRegInt32 io.address with
      | .error e => .error e
      | .ok v => .ok ((v : ℚ) * io.scale + io.offset)
  else if io.modbusDataType == PointValueFLOAT32 then
    match bus.server with
    | none => .panic
    | some s =>
      match s.Regs.ReadRegUint32 io.address with
      | .error e => .error e
      | .ok v => .ok (env.float32frombits v * io.scale + io.offset)
  else .error ("unhandled data type: " ++ io.modbusDataType)

/-- `Modbus.WriteReg`: writes an io value to a register of the server store.
The errors of the store writes are dropped, as in the source.  The float64
difference and quotient are exact rational operations here; they agree with
the code where float64 arithmetic is exact, as at scale 1 and offset 0 on
integers. -/
def WriteReg (env : Env) (bus : Modbus) (io : ModbusIO) : Modbus × Outcome :=
  let unscaledValue := (io.value - io.offset) / io.scale
  match bus.server with
  | none => (bus, .panic)
  | some s =>
    let r := s.Regs.AddReg io.address (regCount io.modbusDataType)
    let put (r1 : Regs) : Modbus := { bus with server := some { s with Regs := r1 } }
    if io.modbusDataType == PointValueUINT16 || io.modbusDataType == PointValueINT16 then
      (put (r.WriteReg io.address (floatToUint16 unscaledValue)).1, .ok)
    else if io.modbusDataType == PointValueUINT32 then
      (put (r.WriteRegUint32 io.address (floatToUint32 unscaledValue)).1, .ok)
    else if io.modbusDataType == PointValueINT32 then
      (put (r.WriteRegInt32 io.address (floatToInt32 unscaledValue)).1, .ok)
    else if io.modbusDataType == PointValueFLOAT32 then
      (put (r.WriteRegUint32 io.address (env.float32bits unscaledValue)).1, .ok)
    else (put r, .error ("unhandled data type: " ++ io.modbusDataType))

/-- A call of `client.WriteSingleReg`; a nil client panics. -/
def clientWriteSingleReg (env : Env) (bus : Modbus) (id address value : Nat)
    (t : List Event) : List Event × Outcome :=
  match bus.client with
  | none => (t, .panic)
  | some _ =>
    (t ++ [Event.writeSingleReg id address value],
      match env.writeSingleReg t id address value with
      | .ok _ => .ok
      | .error e => .error e)

/-- Two calls of `client.WriteSingleReg` at consecutive addresses, the second
only when the first succeeds. -/
def writeRegPair (env : Env) (bus : Modbus) (io : ModbusIO) (regs : List Nat)
    (t : List Event) : List Event × Outcome :=
  match regs with
  | r0 :: r1 :: _ =>
    match clientWriteSingleReg env bus (intToByte io.id) (intToUint16 io.address) r0 t with
    | (t1, .ok) =>
      clientWriteSingleReg env bus (intToByte io.id) (intToUint16 (io.address + 1)) r1 t1
    | (t1, o) => (t1, o)
  | _ => (t, .panic)

/-- `Modbus.WriteBusHoldingReg`: writes the register value of `valueSet` to the
bus. -/
def WriteBusHoldingReg (env : Env) (bus : Modbus) (io : ModbusIO) (t : List Event) :
    List Event × Outcome :=
  let unscaledValue := (io.valueSet - io.offset) / io.scale
  if io.modbusDataType == PointValueUINT16 || io.modbusDataType == PointValueINT16 then
    clientWriteSingleReg env bus (intToByte io.id) (intToUint16 io.address)
      (floatToUint16 unscaledValue) t
  else if io.modbusDataType == PointValueUINT32 then
    writeRegPair env bus io (Uint32ToRegs (floatToUint32 unscaledValue)) t
  else if io.modbusDataType == PointValueINT32 then
    writeRegPair env bus io (Int32ToRegs (floatToInt32 unscaledValue)) t
  else if io.modbusDataType == PointValueFLOAT32 then
    writeRegPair env bus io (Uint32ToRegs (env.float32bits unscaledValue)) t
  else (t, .error ("unhandled data type: " ++ io.modbusDataType))

/-- The call `readFunc(byte(io.id), uint16(io.address), count)` of
`ReadBusReg`; `holding` selects `ReadHoldingRegs` over `ReadInputRegs`.
Binding the method value of a nil client does not panic, calling it does. -/
def readRegsCall (env : Env) (bus : Modbus) (holding : Bool) (io : ModbusIO) (count : Nat)
    (t : List Event) : List Event × Result (List Nat) :=
  match bus.client with
  | none => (t, .panic)
  | some _ =>
    let id := intToByte io.id
    let address := intToUint16 io.address
    if holding then
      (t ++ [Event.readHoldingRegs id address count],
        match env.readHoldingRegs t id address count with
        | .ok regs => .ok regs
        | .error e => .error e)
    else
      (t ++ [Event.readInputRegs id address count],
        match env.readInputRegs t id address count with
        | .ok regs => .ok regs
        | .error e => .error e)

/-- The register read and decoding of `ReadBusReg`: the unscaled value. -/
def readUnscaled (env : Env) (bus : Modbus) (holding : Bool) (io : ModbusIO) (t : List Event) :
    List Event × Result ℚ :=
  if io.modbusDataType == PointValueUINT16 || io.modbusDataType == PointValueINT16 then
    match readRegsCall env bus holding io 1 t with
    | (t1, .panic) => (t1, .panic)
    | (t1, .error e) => (t1, .error e)
    | (t1, .ok regs) =>
      match regs with
      | [] => (t1, .error "Did not receive enough data")
      | r0 :: _ => (t1, .ok (r0 : ℚ))
  else if io.modbusDataType == PointValueUINT32 then
    match readRegsCall env bus holding io 2 t with
    | (t1, .panic) => (t1, .panic)
    | (t1, .error e) => (t1, .error e)
    | (t1, .ok regs) =>
      if regs.length < 2 then (t1, .error "Did not receive enough data") else
      match RegsToUint32 regs with
      | [] => (t1, .panic)
      | v :: _ => (t1, .ok (v : ℚ))
  else if io.modbusDataType == PointValueINT32 then
    match readRegsCall env bus holding io 2 t with
    | (t1, .panic) => (t1, .panic)
    | (t1, .error e) => (t1, .error e)
    | (t1, .ok regs) =>
      if regs.length < 2 then (t1, .error "Did not receive enough data") else
      match RegsToInt32 regs with
      | [] => (t1, .panic)
      | v :: _ => (t1, .ok (v : ℚ))
  else if io.modbusDataType == PointValueFLOAT32 then
    match readRegsCall env bus holding io 2 t with
    | (t1, .panic) => (t1, .panic)
    | (t1, .error e) => (t1, .error e)
    | (t1, .ok regs) =>
      if regs.length < 2 then (t1, .error "Did not receive enough data") else
      match RegsToUint32 regs with
      | [] => (t1, .panic)
      | v :: _ => (t1, .ok (env.float32frombits v))
  else (t, .error ("unhandled data type: " ++ io.modbusDataType))

/-- `Modbus.ReadBusReg`: reads an io value from a register of the bus; this
function modifies `io.value`. -/
def ReadBusReg (env : Env) (bus : Modbus) (io : ModbusIO) (t : List Event) : Step ModbusIO :=
  if io.modbusType == PointValueModbusHoldingRegister ||
      io.modbusType == PointValueModbusInputRegister then
    let holding := io.modbusType == PointValueModbusHoldingRegister
    match readUnscaled env bus holding io t with
    | (t1, .panic) => { state := io, trace := t1, res := .panic }
    | (t1, .error e) => { state := io, trace := t1, res := .error e }
    | (t1, .ok valueUnscaled) =>
      let io1 := { io with value := valueUnscaled * io.scale + io.offset }
      match SendPoint env io1.nodeID PointTypeValue io1.value t1 with
      | (t2, .error e) => { state := io1, trace := t2, res := .error e }
      | (t2, .ok _) => { state := io1, trace := t2, res := .ok }
  else
    { state := io, trace := t,
      res := .error ("ReadBusReg: unsupported modbus type: " ++ io.modbusType) }

/-- `Modbus.ReadBusBit`: reads a coil or discrete input value from the bus;
this function modifies `io.value`. -/
def ReadBusBit (env : Env) (bus : Modbus) (io : ModbusIO) (t : List Event) : Step ModbusIO :=
  if io.modbusType == PointValueModbusCoil ||
      io.modbusType == PointValueModbusDiscreteInput then
    match bus.client with
    | none => { state := io, trace := t, res := .panic }
    | some _ =>
      let id := intToByte io.id
      let address := intToUint16 io.address
      let (t1, r) :=
        if io.modbusType == PointValueModbusCoil then
          (t ++ [Event.readCoils id address 1], env.readCoils t id address 1)
        else
          (t ++ [Event.readDiscreteInputs id address 1],
            env.readDiscreteInputs t id address 1)
      match r with
      | .error e => { state := io, trace := t1, res := .error e }
      | .ok [] => { state := io, trace := t1, res := .error "Did not receive enough data" }
      | .ok (b :: _) =>
        let io1 := { io with value := env.BoolToFloat b }
        match SendPoint env io1.nodeID PointTypeValue io1.value t1 with
        | (t2, .error e) => { state := io1, trace := t2, res := .error e }
        | (t2, .ok _) => { state := io1, trace := t2, res := .ok }
  else
    { state := io, trace := t,
      res := .error ("ReadBusBit: unhandled modbusType: " ++ io.modbusType) }

/-- The tail of the coil and holding-register branches of `ClientIO`: after a
successful write, publish `valueSet`. -/
def publishValueSet (env : Env) (io : ModbusIO) (w : List Event × Outcome) : Step ModbusIO :=
  match w with
  | (t1, .ok) =>
    match SendPoint env io.nodeID PointTypeValue io.valueSet t1 with
    | (t2, .error e) => { state := io, trace := t2, res := .error e }
    | (t2, .ok _) => { state := io, trace := t2, res := .ok }
  | (t1, o) => { state := io, trace := t1, res := o }

/-- A call of `client.WriteSingleCoil`; a nil client panics. -/
def clientWriteSingleCoil (env : Env) (bus : Modbus) (id address : Nat) (value : Bool)
    (t : List Event) : List Event × Outcome :=
  match bus.client with
  | none => (t, .panic)
  | some _ =>
    (t ++ [Event.writeSingleCoil id address value],
      match env.writeSingleCoil t id address value with
      | .ok _ => .ok
      | .error e => .error e)

/-- `Modbus.ClientIO`: processes an IO on a client bus. -/
def ClientIO (env : Env) (bus : Modbus) (io : ModbusIO) (t : List Event) : Step ModbusIO :=
  if io.modbusType == PointValueModbusCoil then
    match ReadBusBit env bus io t with
    | { state := io1, trace := t1, res := .ok } =>
      if io1.valueSet != io1.value then
        publishValueSet env io1
          (clientWriteSingleCoil env bus (intToByte io1.id) (intToUint16 io1.address)
            (env.FloatToBool io1.valueSet) t1)
      else { state := io1, trace := t1, res := .ok }
    | r => r
  else if io.modbusType == PointValueModbusDiscreteInput then
    ReadBusBit env bus io t
  else if io.modbusType == PointValueModbusHoldingRegister then
    match ReadBusReg env bus io t with
    | { state := io1, trace := t1, res := .ok } =>
      if io1.valueSet != io1.value then
        publishValueSet env io1 (WriteBusHoldingReg env bus io1 t1)
      else { state := io1, trace := t1, res := .ok }
    | r => r
  else if io.modbusType == PointValueModbusInputRegister then
    ReadBusReg env bus io t
  else
    { state := io, trace := t, res := .error ("unhandled modbus io type: " ++ io.modbusType) }

/-- The Go statement `bus.ioInitialized[nodeID] = true`. -/
def setInitialized (bus : Modbus) (nodeID : String) : Modbus :=
  if nodeID ∈ bus.ioInitialized then bus
  else { bus with ioInitialized := bus.ioInitialized ++ [nodeID] }

/-- The statements `Regs.AddCoil(address); Regs.WriteCoil(address, v)` of
`ServerIO`; the error of `WriteCoil` is dropped, as in the source. -/
def seedCoil (bus : Modbus) (address : Int) (v : Bool) : Modbus × Outcome :=
  match bus.server with
  | none => (bus, .panic)
  | some s =>
    ({ bus with server := some { s with Regs := ((s.Regs.AddCoil address).WriteCoil address v).1 } },
      .ok)

/-- `Modbus.ServerIO`: processes an IO on a server bus. -/
def ServerIO (env : Env) (bus : Modbus) (io : ModbusIO) (t : List Event) : Step Modbus :=
  if io.modbusType == PointValueModbusDiscreteInput then
    match seedCoil bus io.address (env.FloatToBool io.value) with
    | (bus1, .panic) => { state := bus1, trace := t, res := .panic }
    | (bus1, _) => { state := bus1, trace := t, res := .ok }
  else if io.modbusType == PointValueModbusCoil then
    let initialized := decide (io.nodeID ∈ bus.ioInitialized)
    let (bus1, o) :=
      if !initialized then
        match seedCoil bus io.address (env.FloatToBool io.value) with
        | (b, .panic) => (b, Outcome.panic)
        | (b, _) => (setInitialized b io.nodeID, Outcome.ok)
      else (bus, Outcome.ok)
    match o with
    | .panic => { state := bus1, trace := t, res := .panic }
    | _ =>
      match bus1.server with
      | none => { state := bus1, trace := t, res := .panic }
      | some s =>
        match s.Regs.ReadCoil io.address with
        | .error e => { state := bus1, trace := t, res := .error e }
        | .ok regValue =>
          let dbValue := env.FloatToBool io.value
          if regValue != dbValue then
            match SendPoint env io.nodeID PointTypeValue (env.BoolToFloat regValue) t with
            | (t1, .error e) => { state := bus1, trace := t1, res := .error e }
            | (t1, .ok _) => { state := bus1, trace := t1, res := .ok }
          else { state := bus1, trace := t, res := .ok }
  else if io.modbusType == PointValueModbusInputRegister then
    match WriteReg env bus io with
    | (bus1, .panic) => { state := bus1, trace := t, res := .panic }
    | (bus1, _) => { state := bus1, trace := t, res := .ok }
  else if io.modbusType == PointValueModbusHoldingRegister then
    let initialized := decide (io.nodeID ∈ bus.ioInitialized)
    let (bus1, o) :=
      if !initialized then
        match WriteReg env bus io with
        | (b, .panic) => (b, Outcome.panic)
        | (b, _) => (setInitialized b io.nodeID, Outcome.ok)
      else (bus, Outcome.ok)
    match o with
    | .panic => { state := bus1, trace := t, res := .panic }
    | _ =>
      match ReadReg env bus1 io with
      | .panic => { state := bus1, trace := t, res := .panic }
      | .error e => { state := bus1, trace := t, res := .error e }
      | .ok v =>
        if io.value != v then
          match SendPoint env io.nodeID PointTypeValue v t with
          | (t1, .error e) => { state := bus1, trace := t1, res := .error e }
          | (t1, .ok _) => { state := bus1, trace := t1, res := .ok }
        else { state := bus1, trace := t, res := .ok }
  else
    { state := bus, trace := t, res := .error ("unhandled modbus io type: " ++ io.modbusType) }

/-- `NewModbusIO`: converts a node to a modbus IO. -/
def NewModbusIO (busType : String) (node : NodeEdge) : Except String ModbusIO :=
  let ret : ModbusIO :=
    { nodeID := node.ID, description := "", id := 0, address := 0, modbusType := "",
      modbusDataType := "", scale := 0, offset := 0, value := 0, valueSet := 0 }
  let (id, ok) := Points.ValueInt node.Points "" PointTypeID 0
  let ret := { ret with id := id }
  if busType == PointValueClient && !ok then .error "Must define modbus ID" else
  let (address, ok) := Points.ValueInt node.Points "" PointTypeAddress 0
  let ret := { ret with address := address }
  if !ok then .error "Must define modbus address" else
  let (modbusType, ok) := Points.Text node.Points "" PointTypeModbusIOType 0
  let ret := { ret with modbusType := modbusType }
  if !ok then .error "Must define modbus IO type" else
  let registerPart : Except String ModbusIO :=
    if ret.modbusType == PointValueModbusInputRegister ||
        ret.modbusType == PointValueModbusHoldingRegister then
      let (modbusDataType, ok) := Points.Text node.Points "" PointTypeDataFormat 0
      let ret := { ret with modbusDataType := modbusDataType }
      if !ok then .error "Data format must be specified" else
      let (scale, ok) := Points.Value node.Points "" PointTypeScale 0
      let ret := { ret with scale := scale }
      if !ok then .error "Must define modbus scale" else
      let (offset, ok) := Points.Value node.Points "" PointTypeOffset 0
      let ret := { ret with offset := offset }
      if !ok then .error "Must define modbus offset" else
      .ok ret
    else .ok ret
  match registerPart with
  | .error e => .error e
  | .ok ret =>
    let (value, _) := Points.Value node.Points "" PointTypeValue 0
    let (valueSet, _) := Points.Value node.Points "" PointTypeValueSet 0
    .ok { ret with value := value, valueSet := valueSet }

/-! ## `ModbusManager` -/

/-- `type ModbusManager struct`; the map `busses` is an association list with
one entry per key, the database and the NATS connection are part of the
`Env`. -/
structure ModbusManager where
  busses : List (String × Modbus)
deriving DecidableEq, Repr

/-- `NewModbusManager`. -/
def NewModbusManager : ModbusManager := { busses := [] }

/-- The state behind the pointer `mm.busses[id]` after the bus was mutated. -/
def storeBus (id : String) (bus : Modbus) :
    List (String × Modbus) → List (String × Modbus)
  | [] => [(id, bus)]
  | (k, b) :: rest => if k == id then (k, bus) :: rest else (k, b) :: storeBus id bus rest

/-- The loop over the IO nodes of one bus in `Update`: an IO that cannot be
built or whose pass fails is logged and skipped. -/
def Update.ioLoop (env : Env) : List NodeEdge → Modbus → List Event → Step Modbus
  | [], bus, t => { state := bus, trace := t, res := .ok }
  | ioNode :: rest, bus, t =>
    match NewModbusIO bus.busType ioNode with
    | .error _ => Update.ioLoop env rest bus t
    | .ok io =>
      if bus.busType == PointValueServer then
        match ServerIO env bus io t with
        | { state := bus1, trace := t1, res := .panic } =>
          { state := bus1, trace := t1, res := .panic }
        | { state := bus1, trace := t1, res := _ } => Update.ioLoop env rest bus1 t1
      else if bus.busType == PointValueClient then
        match ClientIO env bus io t with
        | { state := _, trace := t1, res := .panic } =>
          { state := bus, trace := t1, res := .panic }
        | { state := _, trace := t1, res := _ } => Update.ioLoop env rest bus t1
      else Update.ioLoop env rest bus t

/-- The body of the loop over the bus nodes in `Update`. -/
def Update.busStep (env : Env) (busses : List (String × Modbus)) (ne : NodeEdge)
    (t : List Event) : Step (List (String × Modbus)) :=
  let entry : Option (Modbus × List (String × Modbus)) :=
    match busses.lookup ne.ID with
    | some bus => some (bus, busses)
    | none =>
      match NewModbus ne with
      | .error _ => none
      | .ok bus => some (bus, storeBus ne.ID bus busses)
  match entry with
  | none => { state := busses, trace := t, res := .ok }
  | some (bus, busses1) =>
    match CheckPort env bus ne t with
    | { state := bus1, trace := t1, res := .ok } =>
      let t2 := t1 ++ [Event.nodeChildren ne.ID NodeTypeModbusIO]
      match env.nodeChildren t1 ne.ID NodeTypeModbusIO with
      | .error _ => { state := storeBus ne.ID bus1 busses1, trace := t2, res := .ok }
      | .ok ioNodes =>
        let r := Update.ioLoop env ioNodes bus1 t2
        { state := storeBus ne.ID r.state busses1, trace := r.trace, res := r.res }
    | { state := bus1, trace := t1, res := _ } =>
      { state := storeBus ne.ID bus1 busses1, trace := t1, res := .ok }

/-- The loop over the bus nodes in `Update`. -/
def Update.busLoop (env : Env) :
    List NodeEdge → List (String × Modbus) → List Event → Step (List (String × Modbus))
  | [], busses, t => { state := busses, trace := t, res := .ok }
  | ne :: rest, busses, t =>
    match Update.busStep env busses ne t with
    | { state := busses1, trace := t1, res := .panic } =>
      { state := busses1, trace := t1, res := .panic }
    | { state := busses1, trace := t1, res := _ } => Update.busLoop env rest busses1 t1

/-- The removal loop of `Update`: every bus whose id was not found is closed
and deleted; closing a nil port panics.  The map is visited in list order. -/
def Update.remove (found : List String) :
    List (String × Modbus) → List Event → Step (List (String × Modbus))
  | [], t => { state := [], trace := t, res := .ok }
  | (id, bus) :: rest, t =>
    if id ∈ found then
      let r := Update.remove found rest t
      { state := (id, bus) :: r.state, trace := r.trace, res := r.res }
    else
      match bus.port with
      | none => { state := (id, bus) :: rest, trace := t, res := .panic }
      | some p => Update.remove found rest (t ++ [Event.portClose p.handle])

/-- `ModbusManager.Update`: queries the database for modbus nodes and
synchronizes the internal structures with them. -/
def Update (env : Env) (mm : ModbusManager) (t : List Event) : Step ModbusManager :=
  let rootID := env.rootNodeID
  let t0 := t ++ [Event.nodeChildren rootID NodeTypeModbus]
  match env.nodeChildren t rootID NodeTypeModbus with
  | .error e => { state := mm, trace := t0, res := .error e }
  | .ok nodes =>
    let found := nodes.map (fun ne => ne.ID)
    match Update.busLoop env nodes mm.busses t0 with
    | { state := busses1, trace := t1, res := .panic } =>
      { state := { busses := busses1 }, trace := t1, res := .panic }
    | { state := busses1, trace := t1, res := _ } =>
      let r := Update.remove found busses1 t1
      { state := { busses := r.state }, trace := r.trace, res := r.res }

/-! ## Concrete inputs -/

/-- An outside world in which every operation succeeds: the remote device
answers every register read with words `0xFFFB` and every bit read with
cleared bits, as many as asked for, and the database has no nodes. -/
def calmEnv : Env where
  serialOpen := fun _ _ _ => .ok ()
  sendPoint := fun _ _ _ _ => .ok ()
  readCoils := fun _ _ _ n => .ok (List.replicate n false)
  readDiscreteInputs := fun _ _ _ n => .ok (List.replicate n false)
  readHoldingRegs := fun _ _ _ n => .ok (List.replicate n 65531)
  readInputRegs := fun _ _ _ n => .ok (List.replicate n 65531)
  writeSingleCoil := fun _ _ _ _ => .ok ()
  writeSingleReg := fun _ _ _ _ => .ok ()
  nodeChildren := fun _ _ _ => .ok []
  rootNodeID := "root"
  FloatToBool := fun v => decide (v ≠ 0)
  BoolToFloat := fun b => if b then 1 else 0
  float32bits := fun _ => 0
  float32frombits := fun _ => 0

/-- A server endpoint with an open port and an empty register store. -/
def serverBus : Modbus where
  busType := PointValueServer
  id := 7
  portName := "/dev/x"
  baud := 9600
  port := some { handle := 0 }
  client := none
  server := some { id := 7, port := { handle := 0 }, Regs := { regs := [], coils := [] } }
  debugLevel := 0
  ioInitialized := []

/-- A client endpoint with an open port. -/
def clientBus : Modbus where
  busType := PointValueClient
  id := 0
  portName := "/dev/x"
  baud := 9600
  port := some { handle := 0 }
  client := some { port := { handle := 0 }, debug := 0 }
  server := none
  debugLevel := 0
  ioInitialized := []

/-- The holding register of scenario S4: int16 at address 0x0020 with scale 1,
offset 0 and value -5. -/
def int16IO : ModbusIO where
  nodeID := "io1"
  description := ""
  id := 3
  address := 32
  modbusType := PointValueModbusHoldingRegister
  modbusDataType := PointValueINT16
  scale := 1
  offset := 0
  value := -5
  valueSet := -5

/-- An input register whose data format is not one of the five formats. -/
def bogusInputIO : ModbusIO where
  nodeID := "io2"
  description := ""
  id := 3
  address := 48
  modbusType := PointValueModbusInputRegister
  modbusDataType := "uint8"
  scale := 1
  offset := 0
  value := 1
  valueSet := 0

/-! ## Vocabulary of the statements -/

/-- The two's-complement signed reading of a 16-bit word. -/
def int16OfWord (w : Nat) : Int := if w < 32768 then (w : Int) else (w : Int) - 65536

/-- Whether an event is a write to the remote device. -/
def Event.isWrite : Event → Bool
  | .writeSingleCoil _ _ _ => true
  | .writeSingleReg _ _ _ => true
  | _ => false

/-- Whether an event is a read from the remote device. -/
def Event.isRead : Event → Bool
  | .readCoils _ _ _ => true
  | .readDiscreteInputs _ _ _ => true
  | .readHoldingRegs _ _ _ => true
  | .readInputRegs _ _ _ => true
  | _ => false

/-- The points published in a trace, in order: node id, point type, value. -/
def published : List Event → List (String × String × ℚ)
  | [] => []
  | .sendPoint n p v :: rest => (n, p, v) :: published rest
  | _ :: rest => published rest

/-- Every bus and publish operation succeeds, and every read returns at least
the number of items asked for. -/
def Env.succeeds (env : Env) : Prop :=
  (∀ t n p v, env.sendPoint t n p v = Except.ok ()) ∧
  (∀ t i a v, env.writeSingleCoil t i a v = Except.ok ()) ∧
  (∀ t i a v, env.writeSingleReg t i a v = Except.ok ()) ∧
  (∀ t i a n, ∃ l, env.readCoils t i a n = Except.ok l ∧ n ≤ l.length) ∧
  (∀ t i a n, ∃ l, env.readDiscreteInputs t i a n = Except.ok l ∧ n ≤ l.length) ∧
  (∀ t i a n, ∃ l, env.readHoldingRegs t i a n = Except.ok l ∧ n ≤ l.length) ∧
  (∀ t i a n, ∃ l, env.readInputRegs t i a n = Except.ok l ∧ n ≤ l.length)

/-- The five data formats. -/
def supportedFormat (f : String) : Prop :=
  f = PointValueUINT16 ∨ f = PointValueINT16 ∨ f = PointValueUINT32 ∨
    f = PointValueINT32 ∨ f = PointValueFLOAT32

/-- A list of events all of which are `WriteSingleReg` calls. -/
def allWriteSingleReg (ws : List Event) : Prop :=
  ∀ e ∈ ws, ∃ i a v, e = Event.writeSingleReg i a v

/-- The coil of scenario S2: value 0, valueSet 1. -/
def coilIO : ModbusIO where
  nodeID := "io3"
  description := ""
  id := 1
  address := 5
  modbusType := PointValueModbusCoil
  modbusDataType := ""
  scale := 0
  offset := 0
  value := 0
  valueSet := 1

/-- The server endpoint of scenario S4 after the first pass and the master's
write: the IO "io1" is initialized and the register 0x0020 holds 0x000A. -/
def seededBus : Modbus :=
  { serverBus with
    server := some { id := 7, port := { handle := 0 },
                     Regs := { regs := [(32, 10)], coils := [] } }
    ioInitialized := ["io1"] }

/-- The bus node of scenario S6 after the change of baud to 19200. -/
def busNode19200 : NodeEdge where
  ID := "bus1"
  Typ := NodeTypeModbus
  Points :=
    [ { Typ := PointTypeClientServer, Index := 0, Text := PointValueServer, Value := 0 },
      { Typ := PointTypePort, Index := 0, Text := "/dev/x", Value := 0 },
      { Typ := PointTypeBaud, Index := 0, Text := "", Value := 19200 },
      { Typ := PointTypeID, Index := 0, Text := "", Value := 7 } ]

/-- The configuration of an endpoint: role, port name, baud, unit id and debug
level. -/
structure BusConfig where
  busType : String
  portName : String
  baud : Int
  id : Int
  debugLevel : Int
deriving DecidableEq, Repr

/-- The configuration a bus node asks for: its clientServer and port texts,
its baud and debug values truncated to integers (debug is 0 when the point is
absent), and its id when the role is server (the held id otherwise). -/
def nodeConfig (bus : Modbus) (node : NodeEdge) : BusConfig where
  busType := (Points.Text node.Points "" PointTypeClientServer 0).1
  portName := (Points.Text node.Points "" PointTypePort 0).1
  baud := floatToInt (Points.Value node.Points "" PointTypeBaud 0).1
  id :=
    if (Points.Text node.Points "" PointTypeClientServer 0).1 = PointValueServer
    then floatToInt (Points.Value node.Points "" PointTypeID 0).1 else bus.id
  debugLevel := floatToInt (Points.Value node.Points "" PointTypeDebug 0).1

/-- One of the five configured values differs from the held one. -/
def BusConfig.differs (c : BusConfig) (bus : Modbus) : Prop :=
  c.busType ≠ bus.busType ∨ c.portName ≠ bus.portName ∨ c.baud ≠ bus.baud ∨
    c.id ≠ bus.id ∨ c.debugLevel ≠ bus.debugLevel

/-- A bus node without any point. -/
def bareNode : NodeEdge where
  ID := "bus1"
  Typ := NodeTypeModbus
  Points := []

/-- An outside world like `calmEnv` whose database lists `nodes` as the modbus
nodes under the root and no IO node. -/
def listingEnv (nodes : List NodeEdge) : Env :=
  { calmEnv with
    nodeChildren := fun _ parent typ =>
      if parent == "root" && typ == NodeTypeModbus then .ok nodes else .ok [] }

/-- The ids of the endpoints a manager holds: the keys of `busses`. -/
def busIds (busses : List (String × Modbus)) : List String := busses.map Prod.fst

/-- A coil IO node that also carries a scale point. -/
def coilNodeWithScale : NodeEdge where
  ID := "io4"
  Typ := NodeTypeModbusIO
  Points :=
    [ { Typ := PointTypeAddress, Index := 0, Text := "", Value := 5 },
      { Typ := PointTypeModbusIOType, Index := 0, Text := PointValueModbusCoil, Value := 0 },
      { Typ := PointTypeScale, Index := 0, Text := "", Value := 2 } ]

/-- The type of an IO node is one of the two register types. -/
def isRegisterNode (node : NodeEdge) : Prop :=
  (Points.Text node.Points "" PointTypeModbusIOType 0).1 = PointValueModbusInputRegister ∨
    (Points.Text node.Points "" PointTypeModbusIOType 0).1 = PointValueModbusHoldingRegister

/-- The four IO types. -/
def supportedType (ty : String) : Prop :=
  ty = PointValueModbusDiscreteInput ∨ ty = PointValueModbusCoil ∨
    ty = PointValueModbusInputRegister ∨ ty = PointValueModbusHoldingRegister

/-- The bus node "bus1" asking for the client role. -/
def clientNode : NodeEdge where
  ID := "bus1"
  Typ := NodeTypeModbus
  Points :=
    [ { Typ := PointTypeClientServer, Index := 0, Text := PointValueClient, Value := 0 },
      { Typ := PointTypePort, Index := 0, Text := "/dev/x", Value := 0 },
      { Typ := PointTypeBaud, Index := 0, Text := "", Value := 9600 } ]

/-- The seeded server endpoint of scenario S4 after `CheckPort` on a node that
asks for the client role. -/
def roleChanged : Step Modbus := CheckPort calmEnv seededBus clientNode []

/-- The endpoint `roleChanged` after a further `CheckPort` on a node that asks
for the server role again. -/
def roleChangedBack : Step Modbus :=
  CheckPort calmEnv roleChanged.state busNode19200 roleChanged.trace

/-- One call on an endpoint: `CheckPort`, `ServerIO` or `ClientIO`, with the
outside world, the argument and the trace at the call. -/
inductive Call where
  | check (env : Env) (node : NodeEdge) (t : List Event)
  | server (env : Env) (io : ModbusIO) (t : List Event)
  | client (env : Env) (io : ModbusIO) (t : List Event)

/-- The endpoint after a call (`ClientIO` mutates only its IO). -/
def Call.run : Call → Modbus → Modbus
  | .check env node t, bus => (CheckPort env bus node t).state
  | .server env io t, bus => ( ServerIO env bus io t).state
  | .client _ _ _, bus => bus

/-- Whether a call is an IO pass. -/
def Call.isPass : Call → Bool
  | .check _ _ _ => false
  | _ => true

/-- The endpoint after a sequence of calls. -/
def runCalls (calls : List Call) (bus : Modbus) : Modbus :=
  calls.foldl (fun b c => c.run b) bus

/-- The engine matches the role: with an open port, a server endpoint has a
server engine and no client engine, and a client endpoint has a client engine
and no server engine. -/
def EngineMatchesRole (bus : Modbus) : Prop :=
  bus.port.isSome = true →
    (bus.busType = PointValueServer → bus.server.isSome = true ∧ bus.client = none) ∧
    (bus.busType = PointValueClient → bus.client.isSome = true ∧ bus.server = none)

/-- Two endpoint states with the same port, role and client engine, and a
server engine in both or in neither. -/
def sameEngines (a b : Modbus) : Prop :=
  a.port = b.port ∧ a.busType = b.busType ∧ a.client = b.client ∧
    a.server.isSome = b.server.isSome

/-- The endpoint `NewModbus` creates from the server bus node of scenario
S6. -/
def newServerBus : Modbus where
  busType := PointValueServer
  id := 0
  portName := "/dev/x"
  baud := 19200
  port := none
  client := none
  server := none
  debugLevel := 0
  ioInitialized := []

/-- A server bus node that carries no id point. -/
def serverNodeNoId : NodeEdge where
  ID := "bus1"
  Typ := NodeTypeModbus
  Points :=
    [ { Typ := PointTypeClientServer, Index := 0, Text := PointValueServer, Value := 0 },
      { Typ := PointTypePort, Index := 0, Text := "/dev/x", Value := 0 },
      { Typ := PointTypeBaud, Index := 0, Text := "", Value := 9600 } ]

/-- An outside world like `calmEnv` whose database lists `node` as the only
modbus node under the root at the first query and no node afterwards, and in
which `serial.Open` succeeds or fails as `openOk` says. -/
def vanishingEnv (node : NodeEdge) (openOk : Bool) : Env :=
  { calmEnv with
    serialOpen := fun _ _ _ => if openOk then .ok () else .error "no such device"
    nodeChildren := fun t parent typ =>
      if parent == "root" && typ == NodeTypeModbus && t.isEmpty then .ok [node] else .ok [] }

/-- The first tick of a new manager in the world `vanishingEnv node openOk`. -/
def firstTick (node : NodeEdge) (openOk : Bool) : Step ModbusManager :=
  Update (vanishingEnv node openOk) NewModbusManager []

/-- The second tick, after the node has been removed from the database. -/
def secondTick (node : NodeEdge) (openOk : Bool) : Step ModbusManager :=
  Update (vanishingEnv node openOk) (firstTick node openOk).state (firstTick node openOk).trace

/-- The unscaled value of the words a register read answers, as `ReadBusReg`
decodes them: the first word for the two 16-bit formats (read as an unsigned
word for both, see C2), the first two words with the first as the more
significant half for the 32-bit formats; `none` for another format or too few
words. -/
def decodeWords (env : Env) (fmt : String) (regs : List Nat) : Option ℚ :=
  if fmt = PointValueUINT16 ∨ fmt = PointValueINT16 then
    match regs with
    | w :: _ => some (w : ℚ)
    | _ => none
  else if fmt = PointValueUINT32 then
    match regs with
    | hi :: lo :: _ => some ((hi * 65536 + lo : Nat) : ℚ)
    | _ => none
  else if fmt = PointValueINT32 then
    match regs with
    | hi :: lo :: _ => some ((uint32ToInt32 (hi * 65536 + lo) : Int) : ℚ)
    | _ => none
  else if fmt = PointValueFLOAT32 then
    match regs with
    | hi :: lo :: _ => some (env.float32frombits (hi * 65536 + lo))
    | _ => none
  else none

/-- The value the remote device answers for an IO when asked at trace `t`: the
first bit of the answer to the bit read, as a float, for a coil or discrete
input; the decoded words of the answer to the register read, times scale plus
offset, for a holding or input register; `none` when the answer is an error or
too short, or the type or format is not supported. -/
def remoteValue (env : Env) (io : ModbusIO) (t : List Event) : Option ℚ :=
  if io.modbusType = PointValueModbusCoil then
    match env.readCoils t (intToByte io.id) (intToUint16 io.address) 1 with
    | .ok (b :: _) => some (env.BoolToFloat b)
    | _ => none
  else if io.modbusType = PointValueModbusDiscreteInput then
    match env.readDiscreteInputs t (intToByte io.id) (intToUint16 io.address) 1 with
    | .ok (b :: _) => some (env.BoolToFloat b)
    | _ => none
  else if io.modbusType = PointValueModbusHoldingRegister then
    match env.readHoldingRegs t (intToByte io.id) (intToUint16 io.address)
        (regCount io.modbusDataType) with
    | .ok regs =>
      (decodeWords env io.modbusDataType regs).map fun u => u * io.scale + io.offset
    | _ => none
  else if io.modbusType = PointValueModbusInputRegister then
    match env.readInputRegs t (intToByte io.id) (intToUint16 io.address)
        (regCount io.modbusDataType) with
    | .ok regs =>
      (decodeWords env io.modbusDataType regs).map fun u => u * io.scale + io.offset
    | _ => none
  else none

/-- The read `ClientIO` issues for an IO of a supported type. -/
def readEvent (io : ModbusIO) : Event :=
  if io.modbusType = PointValueModbusCoil then
    Event.readCoils (intToByte io.id) (intToUint16 io.address) 1
  else if io.modbusType = PointValueModbusDiscreteInput then
    Event.readDiscreteInputs (intToByte io.id) (intToUint16 io.address) 1
  else if io.modbusType = PointValueModbusHoldingRegister then
    Event.readHoldingRegs (intToByte io.id) (intToUint16 io.address)
      (regCount io.modbusDataType)
  else
    Event.readInputRegs (intToByte io.id) (intToUint16 io.address)
      (regCount io.modbusDataType)

/-- An IO `ClientIO` can process: a coil, a discrete input, or a holding or
input register with one of the five data formats. -/
def supportedIO (io : ModbusIO) : Prop :=
  io.modbusType = PointValueModbusCoil ∨ io.modbusType = PointValueModbusDiscreteInput ∨
    ((io.modbusType = PointValueModbusHoldingRegister ∨
        io.modbusType = PointValueModbusInputRegister) ∧
      supportedFormat io.modbusDataType)

/-- The server endpoint of scenario S4 after the first `ServerIO` pass on the
int16 holding register "io1" with value -5: the IO is flagged in
`ioInitialized` and the register 0x0020 holds the word 0xFFFB. -/
def seededMinusFiveBus : Modbus :=
  { serverBus with
    server := some { id := 7, port := { handle := 0 },
                     Regs := { regs := [(32, 65531)], coils := [] } }
    ioInitialized := ["io1"] }

/-! ## Register round trip on the server (C1) -/

/-- C1, the int16 case at the value -5 of scenario S4: `WriteReg` stores the
word 0xFFFB = 65531 at address 0x0020, and the following `ReadReg` of the same
IO returns 65531, not -5: the int16 format is read back as the unsigned word. -/
theorem WriteReg_ReadReg_int16_minus_five :
    ((WriteReg calmEnv serverBus int16IO).1.server.map fun s => s.Regs.regs)
        = some [(32, 65531)] ∧
      (WriteReg calmEnv serverBus int16IO).2 = Outcome.ok ∧
      ReadReg calmEnv (WriteReg calmEnv serverBus int16IO).1 int16IO = Result.ok 65531 ∧
      (65531 : ℚ) ≠ int16IO.value := by
  refine ⟨?_, ?_, ?_, ?_⟩
  · simp [WriteReg, serverBus, int16IO, regCount, Regs.AddReg, Regs.WriteReg,
      setCell, floatToUint16, floatToInt, List.lookup, PointValueUINT16, PointValueINT16]
  · simp [WriteReg, serverBus, int16IO, PointValueUINT16, PointValueINT16]
  · simp [ReadReg, WriteReg, serverBus, int16IO, regCount, Regs.AddReg, Regs.WriteReg,
      Regs.ReadReg, setCell, floatToUint16, floatToInt, List.lookup,
      PointValueUINT16, PointValueINT16]
  · norm_num [ int16IO]

/-- Whatever word the store holds, `ReadReg` of an int16 IO with scale 1 and
offset 0 is never negative: no behaviour of the conversion `uint16(..)` in
`WriteReg` makes a negative int16 value come back. -/
theorem ReadReg_int16_nonneg (env : Env) (bus : Modbus) (io : ModbusIO) (v : ℚ)
    (hfmt : io.modbusDataType = PointValueINT16) (hs : io.scale = 1) (ho : io.offset = 0)
    (h : ReadReg env bus io = Result.ok v) : 0 ≤ v := by
  unfold ReadReg at h
  simp only [hfmt, hs, ho, PointValueINT16, PointValueUINT16] at h
  simp only [beq_self_eq_true, Bool.or_true, if_true] at h
  cases hsrv : bus.server with
  | none => simp [hsrv] at h
  | some s =>
    simp only [hsrv] at h
    cases hr : s.Regs.ReadReg io.address with
    | error e => simp [hr] at h
    | ok w =>
      simp only [hr] at h
      cases h
      positivity

/-- Reading a cell that was just set gives the value set. -/
theorem lookup_setCell_self {β : Type} (a : Int) (v : β) (l : List (Int × β))
    (h : (l.lookup a).isSome) : (setCell a v l).lookup a = some v := by
  induction l with
  | nil => simp [List.lookup] at h
  | cons p rest ih =>
    obtain ⟨k, w⟩ := p
    by_cases hk : k = a
    · subst hk
      simp [setCell, List.lookup]
    · have hk2 : (a == k) = false := by
        simp only [beq_eq_false_iff_ne, ne_eq]
        exact fun h2 => hk h2.symm
      simp only [List.lookup, hk2] at h
      simp [setCell, hk, List.lookup, hk2, ih h]

/-- After `AddReg address 1` the cell `address` exists. -/
theorem AddReg_one_isSome (r : Regs) (a : Int) : ((r.AddReg a 1).regs.lookup a).isSome := by
  simp only [Regs.AddReg, Nat.cast_zero, add_zero]
  cases h : r.regs.lookup a with
  | some v => simp [h]
  | none => simp [h, List.lookup_append]

/-- Go `uint16(f)` is exact on the integers `0..65535`. -/
theorem floatToUint16_natCast (v : Nat) (hv : v < 65536) :
    floatToUint16 (((v : ℚ) - 0) / 1) = v := by
  simp only [floatToUint16, floatToInt, sub_zero, div_one, Rat.num_natCast, Rat.den_natCast]
  simp only [Nat.cast_one, Int.tdiv_one]
  rw [if_pos (by omega)]
  omega

/-- The part of C1 that holds: for the formats uint16 and int16, scale 1 and
offset 0, a value `v` in `0..65535` written by `WriteReg` is returned by
`ReadReg` (for int16 this covers the non-negative values only). -/
theorem WriteReg_ReadReg_word (env : Env) (bus : Modbus) (s : Server) (io : ModbusIO) (v : Nat)
    (hsrv : bus.server = some s)
    (hfmt : io.modbusDataType = PointValueUINT16 ∨ io.modbusDataType = PointValueINT16)
    (hs : io.scale = 1) (ho : io.offset = 0) (hval : io.value = (v : ℚ)) (hv : v < 65536) :
    ReadReg env (WriteReg env bus io).1 io = Result.ok (v : ℚ) := by
  have hc : regCount io.modbusDataType = 1 := by
    rcases hfmt with h | h <;> simp [regCount, h, PointValueUINT16, PointValueINT16]
  have hb : (io.modbusDataType == PointValueUINT16 || io.modbusDataType == PointValueINT16)
      = true := by
    rcases hfmt with h | h <;> simp [h]
  have hw : (WriteReg env bus io).1.server = some { s with Regs :=
      ((s.Regs.AddReg io.address 1).WriteReg io.address v).1 } := by
    simp only [WriteReg, hsrv, hc, hb, if_true, hs, ho, hval, floatToUint16_natCast v hv]
  have hsome := AddReg_one_isSome s.Regs io.address
  have hread : (((s.Regs.AddReg io.address 1).WriteReg io.address v).1).ReadReg io.address
      = .ok v := by
    cases hl : (s.Regs.AddReg io.address 1).regs.lookup io.address with
    | none => simp [hl] at hsome
    | some w =>
      have h2 := lookup_setCell_self io.address (v % 65536) _ hsome
      rw [Nat.mod_eq_of_lt hv] at h2
      simp only [Regs.WriteReg, hl, Regs.ReadReg, h2, Nat.mod_eq_of_lt hv]
  simp only [ReadReg, hb, if_true, hw, hread, hs, ho, mul_one, add_zero]

/-! ## Register read on the client (C2) -/

/-- C2, the int16 case: the remote device answers the read of the int16 holding
register at 0x0020 with the word 0xFFFB, whose signed reading is -5;
`ReadBusReg` sets `io.value` to 65531 and publishes 65531 as point "value". -/
theorem ReadBusReg_int16_word_0xFFFB :
    calmEnv.readHoldingRegs [] 3 32 1 = Except.ok [65531] ∧
      int16OfWord 65531 = -5 ∧
      ReadBusReg calmEnv clientBus int16IO [] =
        { state := { int16IO with value := 65531 }
          trace := [Event.readHoldingRegs 3 32 1, Event.sendPoint "io1" "value" 65531]
          res := Outcome.ok } := by
  refine ⟨rfl, by decide, ?_⟩
  simp [ReadBusReg, readUnscaled, readRegsCall, SendPoint, calmEnv, clientBus, int16IO,
    intToByte, intToUint16, PointValueModbusHoldingRegister, PointValueModbusInputRegister,
    PointValueUINT16, PointValueINT16, PointTypeValue]

/-- What `ReadBusReg` does for both 16-bit formats: when the read of a holding
or input register succeeds with first word `w` and the publish succeeds,
`io.value` becomes `w * scale + offset` with `w` read as an unsigned word, and
exactly that value is published as point "value". -/
theorem ReadBusReg_word (env : Env) (bus : Modbus) (c : Client) (io : ModbusIO)
    (t : List Event) (w : Nat) (rest : List Nat)
    (hc : bus.client = some c)
    (hfmt : io.modbusDataType = PointValueUINT16 ∨ io.modbusDataType = PointValueINT16)
    (hty : io.modbusType = PointValueModbusHoldingRegister ∨
      io.modbusType = PointValueModbusInputRegister)
    (hread : (if io.modbusType = PointValueModbusHoldingRegister
        then env.readHoldingRegs t (intToByte io.id) (intToUint16 io.address) 1
        else env.readInputRegs t (intToByte io.id) (intToUint16 io.address) 1)
      = Except.ok (w :: rest))
    (hsend : ∀ t1 n p v, env.sendPoint t1 n p v = Except.ok ()) :
    (ReadBusReg env bus io t).res = Outcome.ok ∧
      (ReadBusReg env bus io t).state = { io with value := (w : ℚ) * io.scale + io.offset } ∧
      (ReadBusReg env bus io t).trace =
        t ++ [if io.modbusType = PointValueModbusHoldingRegister
              then Event.readHoldingRegs (intToByte io.id) (intToUint16 io.address) 1
              else Event.readInputRegs (intToByte io.id) (intToUint16 io.address) 1,
              Event.sendPoint io.nodeID "value" ((w : ℚ) * io.scale + io.offset)] := by
  have hb : (io.modbusDataType == PointValueUINT16 || io.modbusDataType == PointValueINT16)
      = true := by
    rcases hfmt with h | h <;> simp [h]
  have hb2 : (io.modbusType == PointValueModbusHoldingRegister ||
      io.modbusType == PointValueModbusInputRegister) = true := by
    rcases hty with h | h <;> simp [h]
  by_cases hh : io.modbusType = PointValueModbusHoldingRegister
  · simp only [hh, if_true] at hread
    simp [ReadBusReg, readUnscaled, readRegsCall, SendPoint, hb, hb2, hc, hh, hread, hsend,
      PointTypeValue]
  · simp only [hh, if_false] at hread
    simp [ReadBusReg, readUnscaled, readRegsCall, SendPoint, hb, hb2, hc, hh, hread, hsend,
      PointTypeValue]

/-! ## The write rule of `ClientIO` (C3) -/

theorem published_append (a b : List Event) : published (a ++ b) = published a ++ published b := by
  induction a with
  | nil => rfl
  | cons e rest ih => cases e <;> simp [published, ih]

/-- `ReadBusReg` on an unsupported data format returns an error before any
bus operation. -/
theorem ReadBusReg_unsupported (env : Env) (bus : Modbus) (io : ModbusIO) (t : List Event)
    (hfmt : ¬ supportedFormat io.modbusDataType) :
    ∃ msg, ReadBusReg env bus io t = { state := io, trace := t, res := Outcome.error msg } := by
  simp only [supportedFormat, not_or] at hfmt
  obtain ⟨h1, h2, h3, h4, h5⟩ := hfmt
  by_cases hb : (io.modbusType == PointValueModbusHoldingRegister ||
      io.modbusType == PointValueModbusInputRegister) = true
  · exact ⟨"unhandled data type: " ++ io.modbusDataType,
      by simp [ReadBusReg, hb, readUnscaled, h1, h2, h3, h4, h5]⟩
  · exact ⟨"ReadBusReg: unsupported modbus type: " ++ io.modbusType,
      by simp [ReadBusReg, hb]⟩

theorem clientWriteSingleReg_succeeds (env : Env) (bus : Modbus) (c : Client)
    (id address value : Nat) (t : List Event) (hc : bus.client = some c) (hok : env.succeeds) :
    clientWriteSingleReg env bus id address value t =
      (t ++ [Event.writeSingleReg id address value], Outcome.ok) := by
  simp [clientWriteSingleReg, hc, hok.2.2.1]

theorem writeRegPair_succeeds (env : Env) (bus : Modbus) (c : Client) (io : ModbusIO)
    (r0 r1 : Nat) (t : List Event) (hc : bus.client = some c) (hok : env.succeeds) :
    writeRegPair env bus io [r0, r1] t =
      (t ++ [Event.writeSingleReg (intToByte io.id) (intToUint16 io.address) r0,
             Event.writeSingleReg (intToByte io.id) (intToUint16 (io.address + 1)) r1],
        Outcome.ok) := by
  simp [writeRegPair, clientWriteSingleReg_succeeds env bus c _ _ _ _ hc hok]

theorem writeRegPair_shape (env : Env) (bus : Modbus) (c : Client) (io : ModbusIO)
    (v : Nat) (t : List Event) (hc : bus.client = some c) (hok : env.succeeds) :
    ∃ ws, ws ≠ [] ∧ allWriteSingleReg ws ∧ ws.length = 2 ∧
      writeRegPair env bus io (Uint32ToRegs v) t = (t ++ ws, Outcome.ok) := by
  refine ⟨[Event.writeSingleReg (intToByte io.id) (intToUint16 io.address) (v / 65536 % 65536),
      Event.writeSingleReg (intToByte io.id) (intToUint16 (io.address + 1)) (v % 65536)],
      by simp, ?_, rfl, ?_⟩
  · intro e he
    simp only [List.mem_cons, List.mem_singleton, List.not_mem_nil, or_false] at he
    rcases he with he | he
    · exact ⟨_, _, _, he⟩
    · exact ⟨_, _, _, he⟩
  · exact writeRegPair_succeeds env bus c io _ _ t hc hok

/-- `WriteBusHoldingReg` when everything succeeds and the format is supported:
one `WriteSingleReg` for a 16-bit format, two for a 32-bit format. -/
theorem WriteBusHoldingReg_succeeds (env : Env) (bus : Modbus) (c : Client) (io : ModbusIO)
    (t : List Event) (hc : bus.client = some c) (hok : env.succeeds)
    (hfmt : supportedFormat io.modbusDataType) :
    ∃ ws, ws ≠ [] ∧ allWriteSingleReg ws ∧ ws.length = regCount io.modbusDataType ∧
      WriteBusHoldingReg env bus io t = (t ++ ws, Outcome.ok) := by
  rcases hfmt with h | h | h | h | h
  · refine ⟨[Event.writeSingleReg (intToByte io.id) (intToUint16 io.address)
      (floatToUint16 ((io.valueSet - io.offset) / io.scale))], by simp, ?_, ?_, ?_⟩
    · intro e he
      simp only [List.mem_singleton] at he
      exact ⟨_, _, _, he⟩
    · simp [regCount, h]
    · simp [WriteBusHoldingReg, h, clientWriteSingleReg_succeeds env bus c _ _ _ _ hc hok]
  · refine ⟨[Event.writeSingleReg (intToByte io.id) (intToUint16 io.address)
      (floatToUint16 ((io.valueSet - io.offset) / io.scale))], by simp, ?_, ?_, ?_⟩
    · intro e he
      simp only [List.mem_singleton] at he
      exact ⟨_, _, _, he⟩
    · simp [regCount, h]
    · simp [WriteBusHoldingReg, h, clientWriteSingleReg_succeeds env bus c _ _ _ _ hc hok]
  · obtain ⟨ws, h1, h2, h3, h4⟩ := writeRegPair_shape env bus c io
      (floatToUint32 ((io.valueSet - io.offset) / io.scale)) t hc hok
    refine ⟨ws, h1, h2, ?_, ?_⟩
    · simp [h3, regCount, h, PointValueUINT16, PointValueINT16, PointValueUINT32]
    · rw [← h4]
      simp [WriteBusHoldingReg, h, PointValueUINT16, PointValueINT16, PointValueUINT32]
  · obtain ⟨ws, h1, h2, h3, h4⟩ := writeRegPair_shape env bus c io
      (floatToInt32 ((io.valueSet - io.offset) / io.scale) % 4294967296).toNat t hc hok
    refine ⟨ws, h1, h2, ?_, ?_⟩
    · simp [h3, regCount, h, PointValueUINT16, PointValueINT16, PointValueUINT32,
        PointValueINT32]
    · rw [← h4]
      simp [WriteBusHoldingReg, h, Int32ToRegs, PointValueUINT16, PointValueINT16,
        PointValueUINT32, PointValueINT32]
  · obtain ⟨ws, h1, h2, h3, h4⟩ := writeRegPair_shape env bus c io
      (env.float32bits ((io.valueSet - io.offset) / io.scale)) t hc hok
    refine ⟨ws, h1, h2, ?_, ?_⟩
    · simp [h3, regCount, h, PointValueUINT16, PointValueINT16, PointValueUINT32,
        PointValueINT32, PointValueFLOAT32]
    · rw [← h4]
      simp [WriteBusHoldingReg, h, PointValueUINT16, PointValueINT16,
        PointValueUINT32, PointValueINT32, PointValueFLOAT32]

theorem Event.not_isWrite_of_isRead (e : Event) (h : e.isRead = true) : e.isWrite = false := by
  cases e <;> simp_all [Event.isRead, Event.isWrite]

theorem published_cons_of_isRead (e : Event) (rest : List Event) (h : e.isRead = true) :
    published (e :: rest) = published rest := by
  cases e <;> simp_all [Event.isRead, published]

theorem calmEnv_succeeds : calmEnv.succeeds := by
  refine ⟨fun _ _ _ _ => rfl, fun _ _ _ _ => rfl, fun _ _ _ _ => rfl, ?_, ?_, ?_, ?_⟩ <;>
  · intro t i a n
    exact ⟨_, rfl, by simp⟩

theorem readEvent_isRead (io : ModbusIO) : (readEvent io).isRead = true := by
  unfold readEvent
  split
  · rfl
  · split
    · rfl
    · split <;> rfl

/-- `ReadBusBit` when everything succeeds: the bit read, then the publish of the
value the remote answered. -/
theorem ReadBusBit_reads (env : Env) (bus : Modbus) (c : Client) (io : ModbusIO)
    (t : List Event) (hc : bus.client = some c) (hok : env.succeeds)
    (hty : io.modbusType = PointValueModbusCoil ∨
      io.modbusType = PointValueModbusDiscreteInput) :
    ∃ v, remoteValue env io t = some v ∧
      ReadBusBit env bus io t =
        { state := { io with value := v }
          trace := t ++ [readEvent io, Event.sendPoint io.nodeID "value" v]
          res := Outcome.ok } := by
  obtain ⟨hsend, -, -, hrc, hrd, -, -⟩ := hok
  have hb : (io.modbusType == PointValueModbusCoil ||
      io.modbusType == PointValueModbusDiscreteInput) = true := by
    rcases hty with h | h <;> simp [h]
  by_cases hcoil : io.modbusType = PointValueModbusCoil
  · obtain ⟨l, hl, hlen⟩ := hrc t (intToByte io.id) (intToUint16 io.address) 1
    cases l with
    | nil => simp at hlen
    | cons b rest =>
      refine ⟨env.BoolToFloat b, by simp [remoteValue, hcoil, hl], ?_⟩
      simp [ReadBusBit, readEvent, hb, hc, hcoil, hl, SendPoint, hsend, PointTypeValue]
  · have hdi : io.modbusType = PointValueModbusDiscreteInput := by
      rcases hty with h | h
      · exact absurd h hcoil
      · exact h
    obtain ⟨l, hl, hlen⟩ := hrd t (intToByte io.id) (intToUint16 io.address) 1
    cases l with
    | nil => simp at hlen
    | cons b rest =>
      have hre : readEvent io =
          Event.readDiscreteInputs (intToByte io.id) (intToUint16 io.address) 1 := by
        unfold readEvent
        rw [if_neg hcoil, if_pos hdi]
      have hrv : remoteValue env io t = some (env.BoolToFloat b) := by
        unfold remoteValue
        rw [if_neg hcoil, if_pos hdi, hl]
      refine ⟨env.BoolToFloat b, hrv, ?_⟩
      rw [hre]
      simp [ReadBusBit, hb, hc, hcoil, hl, SendPoint, hsend, PointTypeValue]

theorem regCount_of_supported (fmt : String) (h : supportedFormat fmt) :
    (fmt = PointValueUINT16 ∨ fmt = PointValueINT16) ∧ regCount fmt = 1 ∨
    (fmt = PointValueUINT32 ∨ fmt = PointValueINT32 ∨ fmt = PointValueFLOAT32) ∧
      regCount fmt = 2 := by
  rcases h with h | h | h | h | h
  · exact Or.inl ⟨Or.inl h, by simp [regCount, h]⟩
  · exact Or.inl ⟨Or.inr h, by simp [regCount, h]⟩
  · exact Or.inr ⟨Or.inl h, by
      simp [regCount, h, PointValueUINT16, PointValueINT16, PointValueUINT32]⟩
  · exact Or.inr ⟨Or.inr (Or.inl h), by
      simp [regCount, h, PointValueUINT16, PointValueINT16, PointValueUINT32,
        PointValueINT32]⟩
  · exact Or.inr ⟨Or.inr (Or.inr h), by
      simp [regCount, h, PointValueUINT16, PointValueINT16, PointValueUINT32,
        PointValueINT32, PointValueFLOAT32]⟩

/-- The register read of `ReadBusReg` when everything succeeds and the format
is supported: one read of `regCount` words, decoded as `decodeWords` says. -/
theorem readUnscaled_reads (env : Env) (bus : Modbus) (c : Client) (holding : Bool)
    (io : ModbusIO) (t : List Event) (hc : bus.client = some c) (hok : env.succeeds)
    (hfmt : supportedFormat io.modbusDataType) :
    ∃ regs u,
      (if holding then env.readHoldingRegs t (intToByte io.id) (intToUint16 io.address)
          (regCount io.modbusDataType)
        else env.readInputRegs t (intToByte io.id) (intToUint16 io.address)
          (regCount io.modbusDataType)) = Except.ok regs ∧
      decodeWords env io.modbusDataType regs = some u ∧
      readUnscaled env bus holding io t =
        (t ++ [if holding then Event.readHoldingRegs (intToByte io.id)
            (intToUint16 io.address) (regCount io.modbusDataType)
          else Event.readInputRegs (intToByte io.id) (intToUint16 io.address)
            (regCount io.modbusDataType)], Result.ok u) := by
  obtain ⟨-, -, -, -, -, hrh, hri⟩ := hok
  have hans : ∃ regs, (if holding then env.readHoldingRegs t (intToByte io.id)
        (intToUint16 io.address) (regCount io.modbusDataType)
      else env.readInputRegs t (intToByte io.id) (intToUint16 io.address)
        (regCount io.modbusDataType)) = Except.ok regs ∧
      regCount io.modbusDataType ≤ regs.length := by
    cases holding with
    | true => simpa using hrh t (intToByte io.id) (intToUint16 io.address) _
    | false => simpa using hri t (intToByte io.id) (intToUint16 io.address) _
  obtain ⟨regs, hregs, hlen⟩ := hans
  rcases regCount_of_supported _ hfmt with ⟨h16, hcnt⟩ | ⟨h32, hcnt⟩
  · rw [hcnt] at hregs hlen ⊢
    have hb : (io.modbusDataType == PointValueUINT16 ||
        io.modbusDataType == PointValueINT16) = true := by
      rcases h16 with h | h <;> simp [h]
    match regs, hlen with
    | w :: rest, _ =>
      refine ⟨w :: rest, (w : ℚ), hregs, ?_, ?_⟩
      · simp [decodeWords, h16]
      · cases holding with
        | true =>
          simp only [if_true] at hregs
          simp [readUnscaled, readRegsCall, hb, hc, hregs]
        | false =>
          simp only [Bool.false_eq_true, if_false] at hregs
          simp [readUnscaled, readRegsCall, hb, hc, hregs]
  · rw [hcnt] at hregs hlen ⊢
    have hb : (io.modbusDataType == PointValueUINT16 ||
        io.modbusDataType == PointValueINT16) = false := by
      rcases h32 with h | h | h <;>
        simp [h, PointValueUINT16, PointValueINT16, PointValueUINT32, PointValueINT32,
          PointValueFLOAT32]
    have hn16 : ¬ (io.modbusDataType = PointValueUINT16 ∨
        io.modbusDataType = PointValueINT16) := by
      simpa using hb
    match regs, hlen with
    | hi :: lo :: rest, _ =>
      have hcall : readRegsCall env bus holding io 2 t =
          (t ++ [if holding then Event.readHoldingRegs (intToByte io.id)
              (intToUint16 io.address) 2
            else Event.readInputRegs (intToByte io.id) (intToUint16 io.address) 2],
            Result.ok (hi :: lo :: rest)) := by
        cases holding with
        | true =>
          simp only [if_true] at hregs
          simp [readRegsCall, hc, hregs]
        | false =>
          simp only [Bool.false_eq_true, if_false] at hregs
          simp [readRegsCall, hc, hregs]
      rcases h32 with h | h | h
      · have b32 : (io.modbusDataType == PointValueUINT32) = true := by simp [h]
        refine ⟨hi :: lo :: rest, ((hi * 65536 + lo : Nat) : ℚ), hregs, ?_, ?_⟩
        · unfold decodeWords
          rw [if_neg hn16, if_pos h]
        · simp only [readUnscaled, hb, b32, hcall, Bool.false_eq_true, if_false, if_true,
            RegsToUint32]
          simp
      · have b32 : (io.modbusDataType == PointValueUINT32) = false := by
          simp [h, PointValueUINT32, PointValueINT32]
        have n32 : ¬ io.modbusDataType = PointValueUINT32 := by simpa using b32
        have bi32 : (io.modbusDataType == PointValueINT32) = true := by simp [h]
        refine ⟨hi :: lo :: rest, ((uint32ToInt32 (hi * 65536 + lo) : Int) : ℚ), hregs, ?_, ?_⟩
        · unfold decodeWords
          rw [if_neg hn16, if_neg n32, if_pos h]
        · simp only [readUnscaled, hb, b32, bi32, hcall, Bool.false_eq_true, if_false, if_true,
            RegsToInt32, RegsToUint32]
          simp
      · have b32 : (io.modbusDataType == PointValueUINT32) = false := by
          simp [h, PointValueUINT32, PointValueFLOAT32]
        have n32 : ¬ io.modbusDataType = PointValueUINT32 := by simpa using b32
        have bi32 : (io.modbusDataType == PointValueINT32) = false := by
          simp [h, PointValueINT32, PointValueFLOAT32]
        have ni32 : ¬ io.modbusDataType = PointValueINT32 := by simpa using bi32
        have bf32 : (io.modbusDataType == PointValueFLOAT32) = true := by simp [h]
        refine ⟨hi :: lo :: rest, env.float32frombits (hi * 65536 + lo), hregs, ?_, ?_⟩
        · unfold decodeWords
          rw [if_neg hn16, if_neg n32, if_neg ni32, if_pos h]
        · simp only [readUnscaled, hb, b32, bi32, bf32, hcall, Bool.false_eq_true, if_false,
            if_true, RegsToUint32]
          simp

/-- `ReadBusReg` when everything succeeds and the format is supported: the
register read, then the publish of the value the remote answered. -/
theorem ReadBusReg_reads (env : Env) (bus : Modbus) (c : Client) (io : ModbusIO)
    (t : List Event) (hc : bus.client = some c) (hok : env.succeeds)
    (hty : io.modbusType = PointValueModbusHoldingRegister ∨
      io.modbusType = PointValueModbusInputRegister)
    (hfmt : supportedFormat io.modbusDataType) :
    ∃ v, remoteValue env io t = some v ∧
      ReadBusReg env bus io t =
        { state := { io with value := v }
          trace := t ++ [readEvent io, Event.sendPoint io.nodeID "value" v]
          res := Outcome.ok } := by
  have hb : (io.modbusType == PointValueModbusHoldingRegister ||
      io.modbusType == PointValueModbusInputRegister) = true := by
    rcases hty with h | h <;> simp [h]
  have hncoil : ¬ io.modbusType = PointValueModbusCoil := by
    rcases hty with h | h <;>
      simp [h, PointValueModbusCoil, PointValueModbusHoldingRegister,
        PointValueModbusInputRegister]
  have hndi : ¬ io.modbusType = PointValueModbusDiscreteInput := by
    rcases hty with h | h <;>
      simp [h, PointValueModbusDiscreteInput, PointValueModbusHoldingRegister,
        PointValueModbusInputRegister]
  by_cases hh : io.modbusType = PointValueModbusHoldingRegister
  · obtain ⟨regs, u, hregs, hdec, hu⟩ := readUnscaled_reads env bus c true io t hc hok hfmt
    simp only [if_true] at hregs hu
    have hbh : (io.modbusType == PointValueModbusHoldingRegister) = true := by simp [hh]
    have hre : readEvent io = Event.readHoldingRegs (intToByte io.id)
        (intToUint16 io.address) (regCount io.modbusDataType) := by
      unfold readEvent
      rw [if_neg hncoil, if_neg hndi, if_pos hh]
    have hrv : remoteValue env io t = some (u * io.scale + io.offset) := by
      unfold remoteValue
      rw [if_neg hncoil, if_neg hndi, if_pos hh, hregs]
      simp [hdec]
    refine ⟨u * io.scale + io.offset, hrv, ?_⟩
    rw [hre]
    simp [ReadBusReg, hb, hbh, hu, SendPoint, hok.1, PointTypeValue]
  · have hi : io.modbusType = PointValueModbusInputRegister := by
      rcases hty with h | h
      · exact absurd h hh
      · exact h
    obtain ⟨regs, u, hregs, hdec, hu⟩ := readUnscaled_reads env bus c false io t hc hok hfmt
    simp only [Bool.false_eq_true, if_false] at hregs hu
    have hbh : (io.modbusType == PointValueModbusHoldingRegister) = false := by simpa using hh
    have hre : readEvent io = Event.readInputRegs (intToByte io.id)
        (intToUint16 io.address) (regCount io.modbusDataType) := by
      unfold readEvent
      rw [if_neg hncoil, if_neg hndi, if_neg hh]
    have hrv : remoteValue env io t = some (u * io.scale + io.offset) := by
      unfold remoteValue
      rw [if_neg hncoil, if_neg hndi, if_neg hh, if_pos hi, hregs]
      simp [hdec]
    refine ⟨u * io.scale + io.offset, hrv, ?_⟩
    rw [hre]
    have hbi : (io.modbusType == PointValueModbusInputRegister) = true := by simp [hi]
    simp only [ReadBusReg, hbh, hbi, Bool.or_true, if_true, hu, SendPoint, hok.1,
      PointTypeValue]
    simp

/-- What a run of `ClientIO` is when everything succeeds: on a supported IO it
returns nil, sets `io.value` to the value the remote answered, and appends the
read, the publish of that value and, when the IO is a coil or holding register
whose `valueSet` differs from it, the writes `ws` and the publish of
`valueSet`; on an unsupported IO it returns an error and does nothing. -/
theorem ClientIO_shape (env : Env) (bus : Modbus) (c : Client) (io : ModbusIO)
    (t : List Event) (hc : bus.client = some c) (hok : env.succeeds) :
    ( supportedIO io →
      ∃ v ws, remoteValue env io t = some v ∧
        (ws ≠ [] ↔ ((io.modbusType = PointValueModbusCoil ∨
          io.modbusType = PointValueModbusHoldingRegister) ∧ io.valueSet ≠ v)) ∧
        ((io.modbusType = PointValueModbusCoil ∧
            ∀ w ∈ ws, w = Event.writeSingleCoil (intToByte io.id) (intToUint16 io.address)
              (env.FloatToBool io.valueSet)) ∨
          (io.modbusType = PointValueModbusHoldingRegister ∧ allWriteSingleReg ws ∧
            (ws ≠ [] → ws.length = regCount io.modbusDataType)) ∨
          ws = []) ∧
        ClientIO env bus io t =
          { state := { io with value := v }
            trace := t ++ ([readEvent io, Event.sendPoint io.nodeID "value" v] ++ ws ++
              (if ws = [] then [] else [Event.sendPoint io.nodeID "value" io.valueSet]))
            res := Outcome.ok }) ∧
    (¬ supportedIO io →
      ∃ msg, ClientIO env bus io t = { state := io, trace := t, res := Outcome.error msg }) := by
  by_cases h1 : io.modbusType = PointValueModbusCoil
  · refine ⟨fun _ => ?_, fun hn => absurd (Or.inl h1) hn⟩
    obtain ⟨v, hrv, hR⟩ := ReadBusBit_reads env bus c io t hc hok (Or.inl h1)
    by_cases hne : io.valueSet = v
    · refine ⟨v, [], hrv, by simp [hne], Or.inr (Or.inr rfl), ?_⟩
      simp [ ClientIO, h1, hR, hne]
    · refine ⟨v, [Event.writeSingleCoil (intToByte io.id) (intToUint16 io.address)
          (env.FloatToBool io.valueSet)], hrv, by simp [hne, h1], Or.inl ⟨h1, by simp⟩, ?_⟩
      simp [ ClientIO, h1, hR, hne, publishValueSet, clientWriteSingleCoil, hc, hok.2.1,
        SendPoint, hok.1, PointTypeValue]
  have b1 : (io.modbusType == PointValueModbusCoil) = false := by simpa using h1
  by_cases h2 : io.modbusType = PointValueModbusDiscreteInput
  · refine ⟨fun _ => ?_, fun hn => absurd (Or.inr (Or.inl h2)) hn⟩
    obtain ⟨v, hrv, hR⟩ := ReadBusBit_reads env bus c io t hc hok (Or.inr h2)
    have hnh : ¬ io.modbusType = PointValueModbusHoldingRegister := by
      simp [h2, PointValueModbusDiscreteInput, PointValueModbusHoldingRegister]
    refine ⟨v, [], hrv, by simp [h1, hnh], Or.inr (Or.inr rfl), ?_⟩
    have b2 : (io.modbusType == PointValueModbusDiscreteInput) = true := by simp [h2]
    simp only [ ClientIO, b1, b2, if_true, Bool.false_eq_true, if_false, hR]
    simp
  have b2 : (io.modbusType == PointValueModbusDiscreteInput) = false := by simpa using h2
  by_cases h3 : io.modbusType = PointValueModbusHoldingRegister
  · have b3 : (io.modbusType == PointValueModbusHoldingRegister) = true := by simp [h3]
    by_cases hfmt : supportedFormat io.modbusDataType
    · refine ⟨fun _ => ?_, fun hn => absurd (Or.inr (Or.inr ⟨Or.inl h3, hfmt⟩)) hn⟩
      obtain ⟨v, hrv, hR⟩ := ReadBusReg_reads env bus c io t hc hok (Or.inl h3) hfmt
      by_cases hne : io.valueSet = v
      · refine ⟨v, [], hrv, by simp [hne], Or.inr (Or.inr rfl), ?_⟩
        simp [ ClientIO, b1, b2, b3, hR, hne]
      · obtain ⟨ws, hws, hall, hlen, hW⟩ := WriteBusHoldingReg_succeeds env bus c
          { io with value := v }
          (t ++ [readEvent io, Event.sendPoint io.nodeID "value" v]) hc hok hfmt
        refine ⟨v, ws, hrv, by simp [hws, hne, h3], Or.inr (Or.inl ⟨h3, hall, fun _ => hlen⟩),
          ?_⟩
        simp [ ClientIO, b1, b2, b3, hR, hne, hW, hws, publishValueSet, SendPoint, hok.1,
          PointTypeValue]
    · refine ⟨fun hs => ?_, fun _ => ?_⟩
      · rcases hs with h | h | ⟨-, h⟩
        · exact absurd h h1
        · exact absurd h h2
        · exact absurd h hfmt
      · obtain ⟨msg, hR⟩ := ReadBusReg_unsupported env bus io t hfmt
        exact ⟨msg, by simp [ ClientIO, b1, b2, b3, hR]⟩
  have b3 : (io.modbusType == PointValueModbusHoldingRegister) = false := by simpa using h3
  by_cases h4 : io.modbusType = PointValueModbusInputRegister
  · have b4 : (io.modbusType == PointValueModbusInputRegister) = true := by simp [h4]
    by_cases hfmt : supportedFormat io.modbusDataType
    · refine ⟨fun _ => ?_, fun hn => absurd (Or.inr (Or.inr ⟨Or.inr h4, hfmt⟩)) hn⟩
      obtain ⟨v, hrv, hR⟩ := ReadBusReg_reads env bus c io t hc hok (Or.inr h4) hfmt
      refine ⟨v, [], hrv, by simp [h1, h3], Or.inr (Or.inr rfl), ?_⟩
      simp only [ ClientIO, b1, b2, b3, b4, if_true, Bool.false_eq_true, if_false, hR]
      simp
    · refine ⟨fun hs => ?_, fun _ => ?_⟩
      · rcases hs with h | h | ⟨-, h⟩
        · exact absurd h h1
        · exact absurd h h2
        · exact absurd h hfmt
      · obtain ⟨msg, hR⟩ := ReadBusReg_unsupported env bus io t hfmt
        refine ⟨msg, ?_⟩
        rw [← hR]
        simp only [ ClientIO, b1, b2, b3, b4, if_true, Bool.false_eq_true, if_false]
  · have b4 : (io.modbusType == PointValueModbusInputRegister) = false := by simpa using h4
    refine ⟨fun hs => ?_, fun _ => ?_⟩
    · rcases hs with h | h | ⟨h | h, -⟩
      · exact absurd h h1
      · exact absurd h h2
      · exact absurd h h3
      · exact absurd h h4
    · exact ⟨"unhandled modbus io type: " ++ io.modbusType, by
        simp only [ ClientIO, b1, b2, b3, b4, Bool.false_eq_true, if_false]⟩

theorem published_of_isWrite (ws : List Event) (h : ∀ w ∈ ws, w.isWrite = true) :
    published ws = [] := by
  induction ws with
  | nil => rfl
  | cons w rest ih =>
    have hw := h w (by simp)
    have hrest := ih (fun x hx => h x (by simp [hx]))
    cases w <;> simp_all [Event.isWrite, published]

/-- C3: in a run of `ClientIO` on a bus with a client engine in which all bus
and publish operations succeed, with `tail` the events of the run.  On a
supported IO the run returns nil, starts with the read and the publish of the
value read, and `io.value` afterwards is the value the remote answered
(`remoteValue`).  On an unsupported IO the run returns an error and reads,
writes and publishes nothing.  A write is issued if and only if the IO is a
supported coil or holding register and `valueSet` differs from the value read;
a write is the `WriteSingleCoil` of `FloatToBool(valueSet)` for a coil and a
`WriteSingleReg` for a holding register, so none is issued for a discrete input
or input register.  When a write is issued the points published are the value
read and then "value" = `valueSet`; when none is issued the only point
published is the value read. -/
theorem ClientIO_write_rule (env : Env) (bus : Modbus) (c : Client) (io : ModbusIO)
    (t : List Event) (hc : bus.client = some c) (hok : env.succeeds) :
    ∃ tail, ( ClientIO env bus io t).trace = t ++ tail ∧
      ( supportedIO io →
        ( ClientIO env bus io t).res = Outcome.ok ∧
        remoteValue env io t = some ( ClientIO env bus io t).state.value ∧
        ( ClientIO env bus io t).state =
          { io with value := ( ClientIO env bus io t).state.value } ∧
        ∃ rest, tail = readEvent io ::
          Event.sendPoint io.nodeID "value" ( ClientIO env bus io t).state.value :: rest) ∧
      (¬ supportedIO io →
        tail = [] ∧ ( ClientIO env bus io t).state = io ∧
        ∃ msg, ( ClientIO env bus io t).res = Outcome.error msg) ∧
      ((∃ e ∈ tail, e.isWrite = true) ↔
        supportedIO io ∧
        (io.modbusType = PointValueModbusCoil ∨
          io.modbusType = PointValueModbusHoldingRegister) ∧
        io.valueSet ≠ ( ClientIO env bus io t).state.value) ∧
      (∀ e ∈ tail, e.isWrite = true →
        (io.modbusType = PointValueModbusCoil ∧
          e = Event.writeSingleCoil (intToByte io.id) (intToUint16 io.address)
            (env.FloatToBool io.valueSet)) ∨
        (io.modbusType = PointValueModbusHoldingRegister ∧
          ∃ i a v, e = Event.writeSingleReg i a v)) ∧
      ((∃ e ∈ tail, e.isWrite = true) →
        published tail = [(io.nodeID, "value", ( ClientIO env bus io t).state.value),
          (io.nodeID, "value", io.valueSet)]) ∧
      ((¬ ∃ e ∈ tail, e.isWrite = true) → supportedIO io →
        published tail = [(io.nodeID, "value", ( ClientIO env bus io t).state.value)]) := by
  obtain ⟨hsup, hunsup⟩ := ClientIO_shape env bus c io t hc hok
  by_cases hs : supportedIO io
  · obtain ⟨v, ws, hrv, hwsiff, hkind, hC⟩ := hsup hs
    rw [hC]
    have hre := readEvent_isRead io
    have hrw := Event.not_isWrite_of_isRead _ hre
    have hsw : ∀ x : ℚ, (Event.sendPoint io.nodeID "value" x).isWrite = false := fun _ => rfl
    have hwrite : ∀ w ∈ ws, w.isWrite = true := by
      intro w hw
      rcases hkind with ⟨-, h⟩ | ⟨-, h, -⟩ | h
      · rw [h w hw]
        rfl
      · obtain ⟨i, a, x, hx⟩ := h w hw
        rw [hx]
        rfl
      · rw [h] at hw
        simp at hw
    have hpub : published ws = [] := published_of_isWrite ws hwrite
    by_cases hws : ws = []
    · subst hws
      have hno : ¬ ((io.modbusType = PointValueModbusCoil ∨
          io.modbusType = PointValueModbusHoldingRegister) ∧ io.valueSet ≠ v) := by
        intro h
        exact (hwsiff.2 h) rfl
      have hnw : ¬ ∃ e ∈ [readEvent io, Event.sendPoint io.nodeID "value" v],
          e.isWrite = true := by
        simp [hrw, hsw]
      refine ⟨[readEvent io, Event.sendPoint io.nodeID "value" v], by simp, ?_, ?_, ?_, ?_,
        ?_, ?_⟩
      · intro _
        exact ⟨rfl, hrv, rfl, [], rfl⟩
      · intro hn
        exact absurd hs hn
      · constructor
        · intro h
          exact absurd h hnw
        · rintro ⟨-, h1, h2⟩
          exact absurd ⟨h1, h2⟩ hno
      · intro e he hew
        exact absurd ⟨e, he, hew⟩ hnw
      · intro h
        exact absurd h hnw
      · intro _ _
        rw [published_cons_of_isRead _ _ hre]
        simp [published]
    · have hyes := hwsiff.1 hws
      have hex : ∃ e ∈ [readEvent io, Event.sendPoint io.nodeID "value" v] ++ ws ++
          [Event.sendPoint io.nodeID "value" io.valueSet], e.isWrite = true := by
        obtain ⟨w, rest, rfl⟩ := List.exists_cons_of_ne_nil hws
        exact ⟨w, by simp, hwrite w (by simp)⟩
      refine ⟨[readEvent io, Event.sendPoint io.nodeID "value" v] ++ ws ++
          [Event.sendPoint io.nodeID "value" io.valueSet], by simp [hws], ?_, ?_, ?_, ?_,
        ?_, ?_⟩
      · intro _
        exact ⟨rfl, hrv, rfl, ws ++ [Event.sendPoint io.nodeID "value" io.valueSet],
          by simp⟩
      · intro hn
        exact absurd hs hn
      · constructor
        · intro _
          exact ⟨hs, hyes.1, hyes.2⟩
        · intro _
          exact hex
      · intro e he hew
        simp only [List.mem_append, List.mem_cons, List.mem_singleton, List.not_mem_nil,
          or_false] at he
        rcases he with (he | he) | he
        · rcases he with he | he
          · rw [he, hrw] at hew
            exact absurd hew (by simp)
          · rw [he, hsw] at hew
            exact absurd hew (by simp)
        · rcases hkind with ⟨hty, h⟩ | ⟨hty, h, -⟩ | h
          · exact Or.inl ⟨hty, h e he⟩
          · exact Or.inr ⟨hty, h e he⟩
          · exact absurd h hws
        · rw [he, hsw] at hew
          exact absurd hew (by simp)
      · intro _
        rw [published_append, published_append, hpub, published_cons_of_isRead _ _ hre]
        simp [published]
      · intro h
        exact absurd hex h
  · obtain ⟨msg, hC⟩ := hunsup hs
    rw [hC]
    refine ⟨[], by simp, ?_, ?_, ?_, ?_, ?_, ?_⟩
    · intro h
      exact absurd h hs
    · intro _
      exact ⟨rfl, rfl, msg, rfl⟩
    · simp [hs]
    · simp
    · simp
    · intro _ h
      exact absurd h hs

/-- Scenario S2 as an instance of the write rule: the remote answers the coil
read with a cleared bit, `valueSet` is 1, the coil is written with true and
"value" = 1 is published last. -/
theorem ClientIO_write_rule_witness :
    clientBus.client = some { port := { handle := 0 }, debug := 0 } ∧ calmEnv.succeeds ∧
      ( ClientIO calmEnv clientBus coilIO []).trace =
        [Event.readCoils 1 5 1, Event.sendPoint "io3" "value" 0,
         Event.writeSingleCoil 1 5 true, Event.sendPoint "io3" "value" 1] ∧
      ∃ tail, ( ClientIO calmEnv clientBus coilIO []).trace = [] ++ tail ∧
        ((∃ e ∈ tail, e.isWrite = true) ↔
          supportedIO coilIO ∧
          ( coilIO.modbusType = PointValueModbusCoil ∨
            coilIO.modbusType = PointValueModbusHoldingRegister) ∧
          coilIO.valueSet ≠ ( ClientIO calmEnv clientBus coilIO []).state.value) := by
  obtain ⟨tail, h1, -, -, h3, -⟩ :=
    ClientIO_write_rule calmEnv clientBus _ coilIO [] rfl calmEnv_succeeds
  refine ⟨rfl, calmEnv_succeeds, ?_, tail, h1, h3⟩
  simp [ ClientIO, ReadBusBit, publishValueSet, clientWriteSingleCoil, SendPoint, coilIO,
    clientBus, calmEnv, intToByte, intToUint16, PointValueModbusCoil,
    PointValueModbusDiscreteInput, PointTypeValue]

/-! ## The store after seeding (C4) -/

/-- What `ServerIO` does on a coil or holding-register IO whose
`ioInitialized` flag is set, in terms of the source's own `ReadCoil` and
`ReadReg`: it leaves the endpoint, hence the whole register store, unchanged;
for a coil it publishes "value" = the coil bit exactly when the coil can be
read and differs from `FloatToBool(value)`; for a holding register it publishes
"value" = what `ReadReg` returns exactly when `ReadReg` returns a value and
that value differs from `value`; otherwise it publishes nothing.  What
`ReadReg` returns is the decoded content of the store except for the int16
format (see C1). -/
theorem ServerIO_initialized (env : Env) (bus : Modbus) (io : ModbusIO) (t : List Event)
    (hty : io.modbusType = PointValueModbusCoil ∨
      io.modbusType = PointValueModbusHoldingRegister)
    (hinit : io.nodeID ∈ bus.ioInitialized) :
    ( ServerIO env bus io t).state = bus ∧
    ( ServerIO env bus io t).trace = t ++
      (if io.modbusType = PointValueModbusCoil then
        match bus.server with
        | some s =>
          match s.Regs.ReadCoil io.address with
          | .ok c =>
            if c ≠ env.FloatToBool io.value
            then [Event.sendPoint io.nodeID "value" (env.BoolToFloat c)] else []
          | .error _ => []
        | none => []
      else
        match ReadReg env bus io with
        | .ok v => if v ≠ io.value then [Event.sendPoint io.nodeID "value" v] else []
        | _ => []) := by
  have hd : decide (io.nodeID ∈ bus.ioInitialized) = true := by simpa using hinit
  by_cases h1 : io.modbusType = PointValueModbusCoil
  · rw [if_pos h1]
    have hS : ServerIO env bus io t =
        match bus.server with
        | none => { state := bus, trace := t, res := Outcome.panic }
        | some s =>
          match s.Regs.ReadCoil io.address with
          | .error e => { state := bus, trace := t, res := Outcome.error e }
          | .ok regValue =>
            if regValue != env.FloatToBool io.value then
              match SendPoint env io.nodeID PointTypeValue (env.BoolToFloat regValue) t with
              | (t1, .error e) => { state := bus, trace := t1, res := Outcome.error e }
              | (t1, .ok _) => { state := bus, trace := t1, res := Outcome.ok }
            else { state := bus, trace := t, res := Outcome.ok } := by
      simp [ ServerIO, h1, hd, PointValueModbusDiscreteInput, PointValueModbusCoil]
    rw [hS]
    cases hs : bus.server with
    | none => simp [hs]
    | some s =>
      cases hr : s.Regs.ReadCoil io.address with
      | error e => simp [hr]
      | ok c =>
        by_cases hc : c = env.FloatToBool io.value
        · simp [hr, hc]
        · cases hsend : env.sendPoint t io.nodeID "value" (env.BoolToFloat c) <;>
            simp [hr, hc, SendPoint, hsend, PointTypeValue]
  · have h3 : io.modbusType = PointValueModbusHoldingRegister := by
      rcases hty with h | h
      · exact absurd h h1
      · exact h
    rw [if_neg h1]
    have hS : ServerIO env bus io t =
        match ReadReg env bus io with
        | .panic => { state := bus, trace := t, res := Outcome.panic }
        | .error e => { state := bus, trace := t, res := Outcome.error e }
        | .ok v =>
          if io.value != v then
            match SendPoint env io.nodeID PointTypeValue v t with
            | (t1, .error e) => { state := bus, trace := t1, res := Outcome.error e }
            | (t1, .ok _) => { state := bus, trace := t1, res := Outcome.ok }
          else { state := bus, trace := t, res := Outcome.ok } := by
      simp [ ServerIO, h3, hd, PointValueModbusDiscreteInput, PointValueModbusCoil,
        PointValueModbusInputRegister, PointValueModbusHoldingRegister]
    rw [hS]
    cases hr : ReadReg env bus io with
    | panic => simp [hr]
    | error e => simp [hr]
    | ok v =>
      by_cases hv : io.value = v
      · simp [hr, hv]
      · have hv2 : ¬ v = io.value := fun h => hv h.symm
        cases hsend : env.sendPoint t io.nodeID "value" v <;>
          simp [hr, hv, hv2, SendPoint, hsend, PointTypeValue]

/-- Scenario S4, second pass: the master wrote 0x000A to the seeded register
0x0020; `ServerIO` publishes "value" = 10 and leaves the endpoint as it is. -/
theorem ServerIO_initialized_witness :
    ( int16IO.modbusType = PointValueModbusCoil ∨
      int16IO.modbusType = PointValueModbusHoldingRegister) ∧
    int16IO.nodeID ∈ seededBus.ioInitialized ∧
    ( ServerIO calmEnv seededBus int16IO []).state = seededBus ∧
    ( ServerIO calmEnv seededBus int16IO []).trace = [Event.sendPoint "io1" "value" 10] := by
  have h1 : int16IO.modbusType = PointValueModbusCoil ∨
      int16IO.modbusType = PointValueModbusHoldingRegister := Or.inr rfl
  have h2 : int16IO.nodeID ∈ seededBus.ioInitialized := by
    simp [ int16IO, seededBus, serverBus]
  refine ⟨h1, h2, (ServerIO_initialized calmEnv seededBus int16IO [] h1 h2).1, ?_⟩
  simp [ ServerIO, ReadReg, Regs.ReadReg, SendPoint, seededBus, serverBus, int16IO, calmEnv,
    List.lookup, PointValueModbusDiscreteInput, PointValueModbusCoil,
    PointValueModbusInputRegister, PointValueModbusHoldingRegister, PointValueUINT16,
    PointValueINT16, PointTypeValue]
  norm_num

/-- C4 on an initialized int16 holding register: after the first pass of
scenario S4 the IO "io1" is flagged and the register 0x0020 holds the word
0xFFFB, whose int16 content -5 equals the IO's value; `ServerIO` leaves the
endpoint and its store unchanged, yet it publishes "value" = 65531, the word
read as unsigned. -/
theorem ServerIO_initialized_int16_publishes :
    ( ServerIO calmEnv serverBus int16IO []).state = seededMinusFiveBus ∧
      int16IO.modbusType = PointValueModbusHoldingRegister ∧
      int16IO.nodeID ∈ seededMinusFiveBus.ioInitialized ∧
      (seededMinusFiveBus.server.map fun s => s.Regs.regs) = some [(32, 65531)] ∧
      ((int16OfWord 65531 : Int) : ℚ) * int16IO.scale + int16IO.offset = int16IO.value ∧
      ( ServerIO calmEnv seededMinusFiveBus int16IO []).state = seededMinusFiveBus ∧
      ( ServerIO calmEnv seededMinusFiveBus int16IO []).res = Outcome.ok ∧
      ( ServerIO calmEnv seededMinusFiveBus int16IO []).trace =
        [Event.sendPoint "io1" "value" 65531] := by
  have hS : ServerIO calmEnv seededMinusFiveBus int16IO [] =
      { state := seededMinusFiveBus, trace := [Event.sendPoint "io1" "value" 65531],
        res := Outcome.ok } := by
    simp [ ServerIO, ReadReg, Regs.ReadReg, SendPoint, seededMinusFiveBus, serverBus, int16IO,
      calmEnv, List.lookup, PointValueModbusDiscreteInput, PointValueModbusCoil,
      PointValueModbusInputRegister, PointValueModbusHoldingRegister, PointValueUINT16,
      PointValueINT16, PointTypeValue]
    norm_num
  refine ⟨?_, rfl, ?_, rfl, ?_, ?_, ?_, ?_⟩
  · simp [ ServerIO, WriteReg, ReadReg, Regs.ReadReg, Regs.WriteReg, Regs.AddReg, setCell,
      regCount, setInitialized, SendPoint, seededMinusFiveBus, serverBus, int16IO,
      calmEnv, List.lookup, floatToUint16, floatToInt, PointValueModbusDiscreteInput,
      PointValueModbusCoil, PointValueModbusInputRegister, PointValueModbusHoldingRegister,
      PointValueUINT16, PointValueINT16, PointTypeValue]
    norm_num
  · simp [ int16IO, seededMinusFiveBus, serverBus]
  · norm_num [int16OfWord, int16IO]
  · rw [hS]
  · rw [hS]
  · rw [hS]

/-! ## Configuration tracking in `CheckPort` (C5) -/

/-- `CheckPort` on a node that carries the required points: the comparison
step followed by the opening step. -/
theorem CheckPort_eq (env : Env) (bus : Modbus) (node : NodeEdge) (t : List Event)
    (hcs : (Points.Text node.Points "" PointTypeClientServer 0).2 = true)
    (hport : (Points.Text node.Points "" PointTypePort 0).2 = true)
    (hbaud : (Points.Value node.Points "" PointTypeBaud 0).2 = true)
    (hid : (Points.Text node.Points "" PointTypeClientServer 0).1 = PointValueServer →
      (Points.Value node.Points "" PointTypeID 0).2 = true) :
    CheckPort env bus node t =
      CheckPort.openPort env
        (CheckPort.adopt bus (Points.Text node.Points "" PointTypeClientServer 0).1
          (Points.Text node.Points "" PointTypePort 0).1
          (Points.Value node.Points "" PointTypeBaud 0).1
          (if (Points.Text node.Points "" PointTypeClientServer 0).1 = PointValueServer
            then floatToInt (Points.Value node.Points "" PointTypeID 0).1 else bus.id)
          (Points.Value node.Points "" PointTypeDebug 0).1 t).1
        (CheckPort.adopt bus (Points.Text node.Points "" PointTypeClientServer 0).1
          (Points.Text node.Points "" PointTypePort 0).1
          (Points.Value node.Points "" PointTypeBaud 0).1
          (if (Points.Text node.Points "" PointTypeClientServer 0).1 = PointValueServer
            then floatToInt (Points.Value node.Points "" PointTypeID 0).1 else bus.id)
          (Points.Value node.Points "" PointTypeDebug 0).1 t).2 := by
  unfold CheckPort
  rcases h1 : Points.Text node.Points "" PointTypeClientServer 0 with ⟨bt, ok1⟩
  rcases h2 : Points.Text node.Points "" PointTypePort 0 with ⟨pn, ok2⟩
  rcases h3 : Points.Value node.Points "" PointTypeBaud 0 with ⟨bd, ok3⟩
  rcases h4 : Points.Value node.Points "" PointTypeDebug 0 with ⟨dbg, ok4⟩
  rcases h5 : Points.Value node.Points "" PointTypeID 0 with ⟨idF, ok5⟩
  rw [h1] at hcs hid
  rw [h2] at hport
  rw [h3] at hbaud
  rw [h5] at hid
  simp only at hcs hport hbaud hid
  subst hcs hport hbaud
  by_cases hs : bt = PointValueServer
  · have := hid hs
    subst this
    simp [hs]
  · simp [hs]

theorem adopt_same (bus : Modbus) (bt pn : String) (bd : ℚ) (id : Int) (dbg : ℚ)
    (t : List Event)
    (h : ¬ (bt ≠ bus.busType ∨ pn ≠ bus.portName ∨ floatToInt bd ≠ bus.baud ∨
      id ≠ bus.id ∨ floatToInt dbg ≠ bus.debugLevel)) :
    CheckPort.adopt bus bt pn bd id dbg t = (bus, t) := by
  simp only [not_or, ne_eq, not_not] at h
  obtain ⟨h1, h2, h3, h4, h5⟩ := h
  simp [CheckPort.adopt, h1, h2, h3, h4, h5]

theorem adopt_differs (bus : Modbus) (bt pn : String) (bd : ℚ) (id : Int) (dbg : ℚ)
    (t : List Event)
    (h : bt ≠ bus.busType ∨ pn ≠ bus.portName ∨ floatToInt bd ≠ bus.baud ∨
      id ≠ bus.id ∨ floatToInt dbg ≠ bus.debugLevel) :
    CheckPort.adopt bus bt pn bd id dbg t =
      ({ bus with port := none, busType := bt, portName := pn, baud := floatToInt bd,
                  id := id, debugLevel := floatToInt dbg },
        match bus.port with
        | some p => t ++ [Event.portClose p.handle]
        | none => t) := by
  have hb : (bt != bus.busType || pn != bus.portName || floatToInt bd != bus.baud ||
      id != bus.id || floatToInt dbg != bus.debugLevel) = true := by
    simp only [Bool.or_eq_true, bne_iff_ne, ne_eq]
    tauto
  unfold CheckPort.adopt
  rw [if_pos hb]
  cases bus.port <;> rfl

/-- The opening step keeps the five configured values. -/
theorem openPort_config (env : Env) (bus : Modbus) (t : List Event) :
    (CheckPort.openPort env bus t).state.busType = bus.busType ∧
    (CheckPort.openPort env bus t).state.portName = bus.portName ∧
    (CheckPort.openPort env bus t).state.baud = bus.baud ∧
    (CheckPort.openPort env bus t).state.debugLevel = bus.debugLevel ∧
    (CheckPort.openPort env bus t).state.id = bus.id ∧
    (CheckPort.openPort env bus t).state.ioInitialized = bus.ioInitialized := by
  unfold CheckPort.openPort
  cases bus.port with
  | some p => simp
  | none =>
    cases env.serialOpen t bus.portName bus.baud with
    | error e => simp
    | ok u =>
      by_cases hs : bus.busType = PointValueServer
      · simp [hs]
      · by_cases hc : bus.busType = PointValueClient
        · simp [hs, hc, PointValueClient, PointValueServer]
        · simp [hs, hc]

/-- The opening step on a closed port: one attempt to open the serial port,
whose success decides the port held afterwards. -/
theorem openPort_closed (env : Env) (bus : Modbus) (t : List Event) (h : bus.port = none) :
    (CheckPort.openPort env bus t).state.port =
      (match env.serialOpen t bus.portName bus.baud with
        | .ok _ => some { handle := t.length }
        | .error _ => none) ∧
    ∃ rest, (CheckPort.openPort env bus t).trace =
      t ++ Event.serialOpen bus.portName bus.baud :: rest := by
  unfold CheckPort.openPort
  rw [h]
  cases env.serialOpen t bus.portName bus.baud with
  | error e => exact ⟨by simp [h], [], by simp⟩
  | ok u =>
    by_cases hs : bus.busType = PointValueServer
    · exact ⟨by simp [hs], [Event.listen (intToByte bus.id) bus.debugLevel], by simp [hs]⟩
    · by_cases hc : bus.busType = PointValueClient
      · exact ⟨by simp [hs, hc, PointValueClient, PointValueServer], [],
          by simp [hs, hc, PointValueClient, PointValueServer]⟩
      · exact ⟨by simp [hs, hc], [], by simp [hs, hc]⟩

/-- C5: on a bus node that carries clientServer, port and baud points (and an
id point when clientServer = server), after `CheckPort` the endpoint holds the
node's role, port name, truncated baud and debug level (0 when the debug point
is absent) and, for a server, the node's id; if one of the five values differed
and a port was open, that port is closed and cleared first and then one attempt
is made to open a port with the new name and baud, whose success decides the
port held afterwards; if none differed and a port was open, `CheckPort` closes
and opens nothing, returns nil, and leaves the whole endpoint, engines included,
as it was. -/
theorem CheckPort_tracks_config (env : Env) (bus : Modbus) (node : NodeEdge) (t : List Event)
    (hcs : (Points.Text node.Points "" PointTypeClientServer 0).2 = true)
    (hport : (Points.Text node.Points "" PointTypePort 0).2 = true)
    (hbaud : (Points.Value node.Points "" PointTypeBaud 0).2 = true)
    (hid : (Points.Text node.Points "" PointTypeClientServer 0).1 = PointValueServer →
      (Points.Value node.Points "" PointTypeID 0).2 = true) :
    ((CheckPort env bus node t).state.busType = (nodeConfig bus node).busType ∧
      (CheckPort env bus node t).state.portName = (nodeConfig bus node).portName ∧
      (CheckPort env bus node t).state.baud = (nodeConfig bus node).baud ∧
      (CheckPort env bus node t).state.debugLevel = (nodeConfig bus node).debugLevel ∧
      (CheckPort env bus node t).state.id = (nodeConfig bus node).id) ∧
    ((Points.Value node.Points "" PointTypeDebug 0).2 = false →
      (CheckPort env bus node t).state.debugLevel = 0) ∧
    ((CheckPort env bus node t).state.busType = PointValueServer →
      (CheckPort env bus node t).state.id =
        floatToInt (Points.Value node.Points "" PointTypeID 0).1) ∧
    (∀ p, bus.port = some p → (nodeConfig bus node).differs bus →
      (CheckPort env bus node t).state.port =
        (match env.serialOpen (t ++ [Event.portClose p.handle])
            (nodeConfig bus node).portName (nodeConfig bus node).baud with
          | .ok _ => some { handle := t.length + 1 }
          | .error _ => none) ∧
      ∃ rest, (CheckPort env bus node t).trace =
        t ++ Event.portClose p.handle ::
          Event.serialOpen (nodeConfig bus node).portName (nodeConfig bus node).baud :: rest) ∧
    (∀ p, bus.port = some p → ¬ (nodeConfig bus node).differs bus →
      CheckPort env bus node t = { state := bus, trace := t, res := Outcome.ok }) := by
  have hE := CheckPort_eq env bus node t hcs hport hbaud hid
  have hfields : (CheckPort env bus node t).state.busType = (nodeConfig bus node).busType ∧
      (CheckPort env bus node t).state.portName = (nodeConfig bus node).portName ∧
      (CheckPort env bus node t).state.baud = (nodeConfig bus node).baud ∧
      (CheckPort env bus node t).state.debugLevel = (nodeConfig bus node).debugLevel ∧
      (CheckPort env bus node t).state.id = (nodeConfig bus node).id := by
    rw [hE]
    by_cases hd : (nodeConfig bus node).differs bus
    · have hA := adopt_differs bus _ _ _ _ _ t hd
      simp only [nodeConfig] at hA
      rw [hA]
      obtain ⟨h1, h2, h3, h4, h5, -⟩ := openPort_config env
        { bus with port := none,
                   busType := (Points.Text node.Points "" PointTypeClientServer 0).1,
                   portName := (Points.Text node.Points "" PointTypePort 0).1,
                   baud := floatToInt (Points.Value node.Points "" PointTypeBaud 0).1,
                   id := (nodeConfig bus node).id,
                   debugLevel := floatToInt (Points.Value node.Points "" PointTypeDebug 0).1 }
        (match bus.port with
          | some p => t ++ [Event.portClose p.handle]
          | none => t)
      exact ⟨h1, h2, h3, h4, h5⟩
    · have hA := adopt_same bus _ _ _ _ _ t hd
      simp only [nodeConfig] at hA
      rw [hA]
      obtain ⟨h1, h2, h3, h4, h5, -⟩ := openPort_config env bus t
      simp only [BusConfig.differs, not_or, ne_eq, not_not] at hd
      obtain ⟨d1, d2, d3, d4, d5⟩ := hd
      exact ⟨h1.trans d1.symm, h2.trans d2.symm, h3.trans d3.symm, h4.trans d5.symm,
        h5.trans d4.symm⟩
  refine ⟨hfields, ?_, ?_, ?_, ?_⟩
  · intro habs
    rw [hfields.2.2.2.1]
    have h0 : (Points.Value node.Points "" PointTypeDebug 0).1 = 0 := by
      cases hf : Points.find node.Points PointTypeDebug 0 with
      | none => simp [Points.Value, hf]
      | some p => simp [Points.Value, hf] at habs
    simp [nodeConfig, h0, floatToInt]
  · intro hsrv
    rw [hfields.1] at hsrv
    rw [hfields.2.2.2.2]
    simp only [nodeConfig] at hsrv ⊢
    rw [if_pos hsrv]
  · intro p hp hd
    rw [hE]
    have hA := adopt_differs bus _ _ _ _ _ t hd
    simp only [nodeConfig] at hA
    rw [hA, hp]
    have hcl := openPort_closed env
      { bus with port := none,
                 busType := (Points.Text node.Points "" PointTypeClientServer 0).1,
                 portName := (Points.Text node.Points "" PointTypePort 0).1,
                 baud := floatToInt (Points.Value node.Points "" PointTypeBaud 0).1,
                 id := (nodeConfig bus node).id,
                 debugLevel := floatToInt (Points.Value node.Points "" PointTypeDebug 0).1 }
      (t ++ [Event.portClose p.handle]) rfl
    obtain ⟨hport2, rest, htr⟩ := hcl
    refine ⟨?_, rest, ?_⟩
    · simpa [nodeConfig] using hport2
    · simpa [nodeConfig] using htr
  · intro p hp hnd
    rw [hE]
    have hA := adopt_same bus _ _ _ _ _ t hnd
    simp only [nodeConfig] at hA
    rw [hA]
    simp [CheckPort.openPort, hp]

/-- Scenario S6: the server endpoint is open at 9600 baud and the node now asks
for 19200; `CheckPort` closes the port, adopts 19200 and reopens. -/
theorem CheckPort_tracks_config_witness :
    (Points.Text busNode19200.Points "" PointTypeClientServer 0).2 = true ∧
    (Points.Text busNode19200.Points "" PointTypePort 0).2 = true ∧
    (Points.Value busNode19200.Points "" PointTypeBaud 0).2 = true ∧
    ((Points.Text busNode19200.Points "" PointTypeClientServer 0).1 = PointValueServer →
      (Points.Value busNode19200.Points "" PointTypeID 0).2 = true) ∧
    (CheckPort calmEnv serverBus busNode19200 []).state.baud =
      (nodeConfig serverBus busNode19200).baud ∧
    (nodeConfig serverBus busNode19200).baud = 19200 ∧
    (CheckPort calmEnv serverBus busNode19200 []).trace =
      [Event.portClose 0, Event.serialOpen "/dev/x" 19200, Event.listen 7 0] := by
  have h1 : (Points.Text busNode19200.Points "" PointTypeClientServer 0).2 = true := by
    decide
  have h2 : (Points.Text busNode19200.Points "" PointTypePort 0).2 = true := by decide
  have h3 : (Points.Value busNode19200.Points "" PointTypeBaud 0).2 = true := by decide
  have h4 : (Points.Text busNode19200.Points "" PointTypeClientServer 0).1 = PointValueServer →
      (Points.Value busNode19200.Points "" PointTypeID 0).2 = true := fun _ => by decide
  refine ⟨h1, h2, h3, h4,
    (CheckPort_tracks_config calmEnv serverBus busNode19200 [] h1 h2 h3 h4).1.2.2.1, ?_, ?_⟩
  · simp [nodeConfig, Points.Value, Points.find, busNode19200, floatToInt,
      PointTypeClientServer, PointTypePort, PointTypeBaud, PointTypeID]
  · simp [CheckPort, CheckPort.adopt, CheckPort.openPort, Points.Text, Points.Value,
      Points.find, busNode19200, serverBus, calmEnv, floatToInt, intToByte,
      PointTypeClientServer, PointTypePort, PointTypeBaud, PointTypeID, PointTypeDebug,
      PointValueServer, PointValueClient]

/-! ## Endpoints and bus nodes after `Update` (C6) -/

theorem mem_busIds_storeBus (id id1 : String) (bus : Modbus) (m : List (String × Modbus)) :
    id1 ∈ busIds (storeBus id bus m) ↔ id1 = id ∨ id1 ∈ busIds m := by
  induction m with
  | nil => simp [storeBus, busIds]
  | cons p rest ih =>
    obtain ⟨k, b⟩ := p
    by_cases hk : k = id
    · subst hk
      simp [storeBus, busIds]
    · have ih2 : id1 ∈ List.map Prod.fst (storeBus id bus rest) ↔
          id1 = id ∨ id1 ∈ List.map Prod.fst rest := ih
      simp only [storeBus, busIds, beq_iff_eq, hk, if_false, List.map_cons, List.mem_cons, ih2]
      tauto

theorem lookup_isSome_iff_mem_busIds (id : String) (m : List (String × Modbus)) :
    (∃ bus, m.lookup id = some bus) ↔ id ∈ busIds m := by
  induction m with
  | nil => simp [busIds]
  | cons p rest ih =>
    obtain ⟨k, b⟩ := p
    by_cases hk : id = k
    · subst hk
      simp [List.lookup, busIds]
    · have hb : (id == k) = false := by simpa using hk
      have ih2 : (∃ bus, List.lookup id rest = some bus) ↔ id ∈ List.map Prod.fst rest := ih
      simp only [List.lookup, hb, busIds, List.map_cons, List.mem_cons, hk, false_or, ih2]

/-- One pass of the loop body keeps the endpoints held and adds one for the
node exactly when the node had none and `NewModbus` succeeds. -/
theorem mem_busIds_busStep (env : Env) (m : List (String × Modbus)) (ne : NodeEdge)
    (t : List Event) (id : String) :
    id ∈ busIds (Update.busStep env m ne t).state ↔
      id ∈ busIds m ∨ (id = ne.ID ∧ ∃ bus, NewModbus ne = Except.ok bus) := by
  unfold Update.busStep
  cases hl : m.lookup ne.ID with
  | some bus =>
    have hmem : ne.ID ∈ busIds m := (lookup_isSome_iff_mem_busIds ne.ID m).1 ⟨bus, hl⟩
    simp only
    rcases hcp : CheckPort env bus ne t with ⟨bus1, t1, o⟩
    cases o with
    | ok =>
      simp only
      cases env.nodeChildren t1 ne.ID NodeTypeModbusIO with
      | error e =>
        simp only [mem_busIds_storeBus]
        constructor
        · rintro (h | h)
          · exact Or.inl (h ▸ hmem)
          · exact Or.inl h
        · rintro (h | ⟨h, -⟩)
          · exact Or.inr h
          · exact Or.inl h
      | ok ioNodes =>
        simp only [mem_busIds_storeBus]
        constructor
        · rintro (h | h)
          · exact Or.inl (h ▸ hmem)
          · exact Or.inl h
        · rintro (h | ⟨h, -⟩)
          · exact Or.inr h
          · exact Or.inl h
    | error e =>
      simp only [mem_busIds_storeBus]
      constructor
      · rintro (h | h)
        · exact Or.inl (h ▸ hmem)
        · exact Or.inl h
      · rintro (h | ⟨h, -⟩)
        · exact Or.inr h
        · exact Or.inl h
    | panic =>
      simp only [mem_busIds_storeBus]
      constructor
      · rintro (h | h)
        · exact Or.inl (h ▸ hmem)
        · exact Or.inl h
      · rintro (h | ⟨h, -⟩)
        · exact Or.inr h
        · exact Or.inl h
  | none =>
    simp only
    cases hn : NewModbus ne with
    | error e => simp
    | ok bus =>
      simp only
      rcases hcp : CheckPort env bus ne t with ⟨bus1, t1, o⟩
      cases o with
      | ok =>
        simp only
        cases env.nodeChildren t1 ne.ID NodeTypeModbusIO with
        | error e =>
          simp only [mem_busIds_storeBus]
          simp
          tauto
        | ok ioNodes =>
          simp only [mem_busIds_storeBus]
          simp
          tauto
      | error e =>
        simp only [mem_busIds_storeBus]
        simp
        tauto
      | panic =>
        simp only [mem_busIds_storeBus]
        simp
        tauto

/-- When the loop over the bus nodes does not panic, the endpoints after it are
those held before and one for every node on which `NewModbus` succeeds. -/
theorem mem_busIds_busLoop (env : Env) (nodes : List NodeEdge) (m : List (String × Modbus))
    (t : List Event) (id : String) (h : (Update.busLoop env nodes m t).res ≠ Outcome.panic) :
    id ∈ busIds (Update.busLoop env nodes m t).state ↔
      id ∈ busIds m ∨ ∃ ne ∈ nodes, ne.ID = id ∧ ∃ bus, NewModbus ne = Except.ok bus := by
  induction nodes generalizing m t with
  | nil => simp [Update.busLoop]
  | cons ne rest ih =>
    have hstep := mem_busIds_busStep env m ne t id
    rcases hs : Update.busStep env m ne t with ⟨m1, t1, o⟩
    rw [hs] at hstep
    simp only at hstep
    cases o with
    | panic => simp [Update.busLoop, hs] at h
    | ok =>
      have hE : Update.busLoop env (ne :: rest) m t = Update.busLoop env rest m1 t1 := by
        simp [Update.busLoop, hs]
      rw [hE] at h ⊢
      rw [ih m1 t1 h, hstep]
      simp only [List.mem_cons, exists_eq_or_imp]
      constructor
      · rintro ((h1 | ⟨h1, h2⟩) | h3)
        · exact Or.inl h1
        · exact Or.inr (Or.inl ⟨h1.symm, h2⟩)
        · exact Or.inr (Or.inr h3)
      · rintro (h1 | ⟨h1, h2⟩ | h3)
        · exact Or.inl (Or.inl h1)
        · exact Or.inl (Or.inr ⟨h1.symm, h2⟩)
        · exact Or.inr h3
    | error e =>
      have hE : Update.busLoop env (ne :: rest) m t = Update.busLoop env rest m1 t1 := by
        simp [Update.busLoop, hs]
      rw [hE] at h ⊢
      rw [ih m1 t1 h, hstep]
      simp only [List.mem_cons, exists_eq_or_imp]
      constructor
      · rintro ((h1 | ⟨h1, h2⟩) | h3)
        · exact Or.inl h1
        · exact Or.inr (Or.inl ⟨h1.symm, h2⟩)
        · exact Or.inr (Or.inr h3)
      · rintro (h1 | ⟨h1, h2⟩ | h3)
        · exact Or.inl (Or.inl h1)
        · exact Or.inl (Or.inr ⟨h1.symm, h2⟩)
        · exact Or.inr h3

/-- When the removal loop returns nil, it keeps exactly the endpoints whose id
was found. -/
theorem mem_busIds_remove (found : List String) (m : List (String × Modbus)) (t : List Event)
    (id : String) (h : (Update.remove found m t).res = Outcome.ok) :
    id ∈ busIds (Update.remove found m t).state ↔ id ∈ busIds m ∧ id ∈ found := by
  induction m generalizing t with
  | nil => simp [Update.remove, busIds]
  | cons p rest ih =>
    obtain ⟨k, bus⟩ := p
    by_cases hk : k ∈ found
    · have hE : Update.remove found ((k, bus) :: rest) t =
          { state := (k, bus) :: (Update.remove found rest t).state
            trace := (Update.remove found rest t).trace
            res := (Update.remove found rest t).res } := by
        simp [Update.remove, hk]
      rw [hE] at h ⊢
      have ih2 : id ∈ List.map Prod.fst (Update.remove found rest t).state ↔
          id ∈ List.map Prod.fst rest ∧ id ∈ found := ih t h
      simp only [busIds, List.map_cons, List.mem_cons, ih2]
      constructor
      · rintro (h1 | h1)
        · exact ⟨Or.inl h1, h1 ▸ hk⟩
        · exact ⟨Or.inr h1.1, h1.2⟩
      · rintro ⟨h1 | h1, h2⟩
        · exact Or.inl h1
        · exact Or.inr ⟨h1, h2⟩
    · cases hp : bus.port with
      | none => simp [Update.remove, hk, hp] at h
      | some port =>
        have hE : Update.remove found ((k, bus) :: rest) t =
            Update.remove found rest (t ++ [Event.portClose port.handle]) := by
          simp [Update.remove, hk, hp]
        rw [hE] at h ⊢
        have ih2 : id ∈ List.map Prod.fst
              (Update.remove found rest (t ++ [Event.portClose port.handle])).state ↔
            id ∈ List.map Prod.fst rest ∧ id ∈ found := ih _ h
        simp only [busIds, List.map_cons, List.mem_cons, ih2]
        constructor
        · rintro ⟨h1, h2⟩
          exact ⟨Or.inr h1, h2⟩
        · rintro ⟨h1 | h1, h2⟩
          · exact absurd (h1 ▸ h2) hk
          · exact ⟨h1, h2⟩

/-- C6 as stated fails: the database lists the bus node "bus1", which carries
no point; `Update` returns nil and the manager holds no endpoint. -/
theorem Update_endpoint_ids_counterexample :
    (listingEnv [bareNode]).nodeChildren [] (listingEnv [bareNode]).rootNodeID NodeTypeModbus
        = Except.ok [bareNode] ∧
      (Update (listingEnv [bareNode]) NewModbusManager []).res = Outcome.ok ∧
      "bus1" ∈ [bareNode].map (fun ne => ne.ID) ∧
      "bus1" ∉ busIds (Update (listingEnv [bareNode]) NewModbusManager []).state.busses := by
  refine ⟨by simp [listingEnv, calmEnv], ?_, by simp [bareNode], ?_⟩
  · simp [Update, Update.busLoop, Update.busStep, Update.remove, listingEnv, calmEnv,
      NewModbusManager, NewModbus, Points.Text, Points.find, bareNode, List.lookup]
  · simp [Update, Update.busLoop, Update.busStep, Update.remove, listingEnv, calmEnv,
      NewModbusManager, NewModbus, Points.Text, Points.find, bareNode, List.lookup, busIds]

/-- C6, amended: after a call of `Update` that returns nil, the ids of the
endpoints held are the ids of the listed bus nodes that already had an endpoint
before the call or on which `NewModbus` succeeds. -/
theorem Update_endpoint_ids (env : Env) (mm : ModbusManager) (t : List Event)
    (nodes : List NodeEdge) (id : String)
    (hlist : env.nodeChildren t env.rootNodeID NodeTypeModbus = Except.ok nodes)
    (hok : (Update env mm t).res = Outcome.ok) :
    id ∈ busIds (Update env mm t).state.busses ↔
      ∃ ne ∈ nodes, ne.ID = id ∧
        (id ∈ busIds mm.busses ∨ ∃ bus, NewModbus ne = Except.ok bus) := by
  unfold Update at hok ⊢
  simp only [hlist] at hok ⊢
  rcases hb : Update.busLoop env nodes mm.busses
    (t ++ [Event.nodeChildren env.rootNodeID NodeTypeModbus]) with ⟨m1, t1, o⟩
  have hloop := mem_busIds_busLoop env nodes mm.busses
    (t ++ [Event.nodeChildren env.rootNodeID NodeTypeModbus]) id
  rw [hb] at hok hloop
  cases o with
  | panic => simp at hok
  | ok =>
    simp only at hok ⊢
    rw [mem_busIds_remove _ _ _ _ hok, hloop (by simp)]
    simp only [List.mem_map]
    constructor
    · rintro ⟨h1 | ⟨ne, hne, hid, hnew⟩, ne2, hne2, hid2⟩
      · exact ⟨ne2, hne2, hid2, Or.inl h1⟩
      · exact ⟨ne, hne, hid, Or.inr hnew⟩
    · rintro ⟨ne, hne, hid, h1 | h1⟩
      · exact ⟨Or.inl h1, ne, hne, hid⟩
      · exact ⟨Or.inr ⟨ne, hne, hid, h1⟩, ne, hne, hid⟩
  | error e =>
    simp only at hok ⊢
    rw [mem_busIds_remove _ _ _ _ hok, hloop (by simp)]
    simp only [List.mem_map]
    constructor
    · rintro ⟨h1 | ⟨ne, hne, hid, hnew⟩, ne2, hne2, hid2⟩
      · exact ⟨ne2, hne2, hid2, Or.inl h1⟩
      · exact ⟨ne, hne, hid, Or.inr hnew⟩
    · rintro ⟨ne, hne, hid, h1 | h1⟩
      · exact ⟨Or.inl h1, ne, hne, hid⟩
      · exact ⟨Or.inr ⟨ne, hne, hid, h1⟩, ne, hne, hid⟩

/-- A tick on a database listing the server bus node "bus1" of scenario S6:
`Update` returns nil and the manager holds the endpoint "bus1". -/
theorem Update_endpoint_ids_witness :
    (listingEnv [busNode19200]).nodeChildren [] (listingEnv [busNode19200]).rootNodeID
        NodeTypeModbus = Except.ok [busNode19200] ∧
      (Update (listingEnv [busNode19200]) NewModbusManager []).res = Outcome.ok ∧
      ("bus1" ∈ busIds (Update (listingEnv [busNode19200]) NewModbusManager []).state.busses ↔
        ∃ ne ∈ [busNode19200], ne.ID = "bus1" ∧
          ("bus1" ∈ busIds NewModbusManager.busses ∨ ∃ bus, NewModbus ne = Except.ok bus)) := by
  have h1 : (listingEnv [busNode19200]).nodeChildren []
      (listingEnv [busNode19200]).rootNodeID NodeTypeModbus = Except.ok [busNode19200] := by
    simp [listingEnv, calmEnv]
  have h2 : (Update (listingEnv [busNode19200]) NewModbusManager []).res = Outcome.ok := by
    simp [Update, Update.busLoop, Update.busStep, Update.ioLoop, Update.remove, listingEnv,
      calmEnv, NewModbusManager, NewModbus, CheckPort, CheckPort.adopt, CheckPort.openPort,
      Points.Text, Points.Value, Points.find, busNode19200, List.lookup, storeBus,
      floatToInt, intToByte, NodeTypeModbus, NodeTypeModbusIO, PointTypeClientServer,
      PointTypePort, PointTypeBaud, PointTypeID, PointTypeDebug, PointValueServer,
      PointValueClient]
  exact ⟨h1, h2,
    Update_endpoint_ids (listingEnv [busNode19200]) NewModbusManager [] [busNode19200] "bus1"
      h1 h2⟩

/-! ## `NewModbusIO` and the required points (C7) -/

theorem Points.Value_absent (ps : List Point) (id typ : String) (index : Int)
    (h : (Points.Value ps id typ index).2 = false) : (Points.Value ps id typ index).1 = 0 := by
  unfold Points.Value at h ⊢
  cases hf : Points.find ps typ index with
  | none => rfl
  | some p => simp [hf] at h

/-- C7 as stated fails on its last part: a coil node that carries a scale point
2 is converted without error, and the IO returned has scale 0, not the node's
scale: format, scale and offset are read for the register types only. -/
theorem NewModbusIO_counterexample :
    (Points.Value coilNodeWithScale.Points "" PointTypeScale 0) = (2, true) ∧
      ∃ io, NewModbusIO PointValueServer coilNodeWithScale = Except.ok io ∧
        io.scale = 0 ∧
        io.scale ≠ (Points.Value coilNodeWithScale.Points "" PointTypeScale 0).1 := by
  refine ⟨by simp [Points.Value, Points.find, coilNodeWithScale, PointTypeAddress,
      PointTypeModbusIOType, PointTypeScale], ?_⟩
  refine ⟨{ nodeID := "io4", description := "", id := 0, address := 5,
            modbusType := "modbusCoil", modbusDataType := "", scale := 0, offset := 0,
            value := 0, valueSet := 0 }, ?_, rfl, ?_⟩
  · simp [ NewModbusIO, Points.ValueInt, Points.Value, Points.Text, Points.find,
      coilNodeWithScale, floatToInt, PointTypeAddress, PointTypeModbusIOType, PointTypeScale,
      PointTypeID, PointTypeValue, PointTypeValueSet, PointValueServer, PointValueClient,
      PointValueModbusCoil, PointValueModbusInputRegister, PointValueModbusHoldingRegister]
  · simp [Points.Value, Points.find, coilNodeWithScale, PointTypeAddress,
      PointTypeModbusIOType, PointTypeScale]

/-- C7, amended: `NewModbusIO` returns an error if and only if the address
point is absent, or the modbusIoType point is absent, or busType = client and
the id point is absent, or the type is a register type and one of dataFormat,
scale, offset is absent; when it succeeds the IO carries the node's id (0 when
absent), address and type, the node's format, scale and offset when the type is
a register type and the zero values otherwise, and the node's value and
valueSet, 0 when their points are absent. -/
theorem NewModbusIO_required_points (busType : String) (node : NodeEdge) :
    ((∃ msg, NewModbusIO busType node = Except.error msg) ↔
      ((Points.ValueInt node.Points "" PointTypeAddress 0).2 = false ∨
        (Points.Text node.Points "" PointTypeModbusIOType 0).2 = false ∨
        (busType = PointValueClient ∧ (Points.ValueInt node.Points "" PointTypeID 0).2 = false) ∨
        (isRegisterNode node ∧
          ((Points.Text node.Points "" PointTypeDataFormat 0).2 = false ∨
            (Points.Value node.Points "" PointTypeScale 0).2 = false ∨
            (Points.Value node.Points "" PointTypeOffset 0).2 = false)))) ∧
    (∀ io, NewModbusIO busType node = Except.ok io →
      io.nodeID = node.ID ∧
      io.id = (Points.ValueInt node.Points "" PointTypeID 0).1 ∧
      io.address = (Points.ValueInt node.Points "" PointTypeAddress 0).1 ∧
      io.modbusType = (Points.Text node.Points "" PointTypeModbusIOType 0).1 ∧
      (isRegisterNode node →
        io.modbusDataType = (Points.Text node.Points "" PointTypeDataFormat 0).1 ∧
        io.scale = (Points.Value node.Points "" PointTypeScale 0).1 ∧
        io.offset = (Points.Value node.Points "" PointTypeOffset 0).1) ∧
      (¬ isRegisterNode node → io.modbusDataType = "" ∧ io.scale = 0 ∧ io.offset = 0) ∧
      io.value = (Points.Value node.Points "" PointTypeValue 0).1 ∧
      io.valueSet = (Points.Value node.Points "" PointTypeValueSet 0).1 ∧
      ((Points.Value node.Points "" PointTypeValue 0).2 = false → io.value = 0) ∧
      ((Points.Value node.Points "" PointTypeValueSet 0).2 = false → io.valueSet = 0)) := by
  have hv := Points.Value_absent node.Points "" PointTypeValue 0
  have hvs := Points.Value_absent node.Points "" PointTypeValueSet 0
  revert hv hvs
  unfold isRegisterNode
  unfold NewModbusIO
  rcases Points.ValueInt node.Points "" PointTypeID 0 with ⟨id, ok1⟩
  rcases Points.ValueInt node.Points "" PointTypeAddress 0 with ⟨addr, ok2⟩
  rcases Points.Text node.Points "" PointTypeModbusIOType 0 with ⟨ty, ok3⟩
  rcases Points.Text node.Points "" PointTypeDataFormat 0 with ⟨fmt, ok4⟩
  rcases Points.Value node.Points "" PointTypeScale 0 with ⟨sc, ok5⟩
  rcases Points.Value node.Points "" PointTypeOffset 0 with ⟨off, ok6⟩
  rcases Points.Value node.Points "" PointTypeValue 0 with ⟨v, ok7⟩
  rcases Points.Value node.Points "" PointTypeValueSet 0 with ⟨vs, ok8⟩
  intro hv hvs
  simp only at hv hvs ⊢
  by_cases hc : busType = PointValueClient <;>
  by_cases hr : ty = PointValueModbusInputRegister ∨ ty = PointValueModbusHoldingRegister <;>
  cases ok1 <;> cases ok2 <;> cases ok3 <;> cases ok4 <;> cases ok5 <;> cases ok6 <;>
  simp [hc, hr] <;> exact ⟨hv, hvs⟩

/-! ## Unsupported types and formats (C8) -/

/-- C8 on the server for an input register: the data format "uint8" is not one
of the five formats; `WriteReg` returns the error "unhandled data type: uint8",
`ServerIO` drops it and returns nil, after two registers were added to the
store. -/
theorem ServerIO_input_register_bad_format :
    ¬ supportedFormat bogusInputIO.modbusDataType ∧
      bogusInputIO.modbusType = PointValueModbusInputRegister ∧
      (WriteReg calmEnv serverBus bogusInputIO).2 =
        Outcome.error "unhandled data type: uint8" ∧
      ( ServerIO calmEnv serverBus bogusInputIO []).res = Outcome.ok ∧
      (( ServerIO calmEnv serverBus bogusInputIO []).state.server.map fun s => s.Regs.regs)
        = some [(48, 0), (49, 0)] := by
  refine ⟨?_, rfl, ?_, ?_, ?_⟩
  · simp [supportedFormat, bogusInputIO, PointValueUINT16, PointValueINT16, PointValueUINT32,
      PointValueINT32, PointValueFLOAT32]
  · simp [WriteReg, serverBus, bogusInputIO, PointValueUINT16, PointValueINT16,
      PointValueUINT32, PointValueINT32, PointValueFLOAT32]
  · simp [ ServerIO, WriteReg, serverBus, bogusInputIO, PointValueUINT16, PointValueINT16,
      PointValueUINT32, PointValueINT32, PointValueFLOAT32, PointValueModbusDiscreteInput,
      PointValueModbusCoil, PointValueModbusInputRegister]
  · simp [ ServerIO, WriteReg, serverBus, bogusInputIO, regCount, Regs.AddReg, List.lookup,
      PointValueUINT16, PointValueINT16,
      PointValueUINT32, PointValueINT32, PointValueFLOAT32, PointValueModbusDiscreteInput,
      PointValueModbusCoil, PointValueModbusInputRegister]

/-- The part of C8 that holds on the client: `ClientIO` returns an error for
every IO whose type is not one of the four types and for every register IO
whose format is not one of the five formats, before any bus operation. -/
theorem ClientIO_unsupported (env : Env) (bus : Modbus) (io : ModbusIO) (t : List Event)
    (h : ¬ supportedType io.modbusType ∨
      ((io.modbusType = PointValueModbusInputRegister ∨
          io.modbusType = PointValueModbusHoldingRegister) ∧
        ¬ supportedFormat io.modbusDataType)) :
    ∃ msg, ClientIO env bus io t = { state := io, trace := t, res := Outcome.error msg } := by
  rcases h with h | ⟨h, hfmt⟩
  · simp only [supportedType, not_or] at h
    obtain ⟨h2, h1, h4, h3⟩ := h
    exact ⟨"unhandled modbus io type: " ++ io.modbusType, by simp [ ClientIO, h1, h2, h3, h4]⟩
  · obtain ⟨msg, hR⟩ := ReadBusReg_unsupported env bus io t hfmt
    refine ⟨msg, ?_⟩
    rcases h with h | h
    · simp [ ClientIO, h, hR, PointValueModbusCoil, PointValueModbusDiscreteInput,
        PointValueModbusHoldingRegister, PointValueModbusInputRegister]
    · simp [ ClientIO, h, hR, PointValueModbusCoil, PointValueModbusDiscreteInput,
        PointValueModbusHoldingRegister, PointValueModbusInputRegister]

/-- The part of C8 that holds on the server: `ServerIO` returns an error for
every IO whose type is not one of the four types, and, on an endpoint with a
server engine, for every holding register whose format is not one of the five
formats. -/
theorem ServerIO_unsupported (env : Env) (bus : Modbus) (s : Server) (io : ModbusIO)
    (t : List Event) (hs : bus.server = some s)
    (h : ¬ supportedType io.modbusType ∨
      (io.modbusType = PointValueModbusHoldingRegister ∧
        ¬ supportedFormat io.modbusDataType)) :
    ∃ msg, ( ServerIO env bus io t).res = Outcome.error msg := by
  rcases h with h | ⟨h, hfmt⟩
  · simp only [supportedType, not_or] at h
    obtain ⟨h2, h1, h4, h3⟩ := h
    exact ⟨"unhandled modbus io type: " ++ io.modbusType, by simp [ ServerIO, h1, h2, h3, h4]⟩
  · simp only [supportedFormat, not_or] at hfmt
    obtain ⟨f1, f2, f3, f4, f5⟩ := hfmt
    refine ⟨"unhandled data type: " ++ io.modbusDataType, ?_⟩
    have hR : ∀ b : Modbus, ReadReg env b io =
        Result.error ("unhandled data type: " ++ io.modbusDataType) := by
      intro b
      simp [ReadReg, f1, f2, f3, f4, f5]
    by_cases hi : io.nodeID ∈ bus.ioInitialized
    · simp [ ServerIO, h, hi, hR, PointValueModbusCoil, PointValueModbusDiscreteInput,
        PointValueModbusHoldingRegister, PointValueModbusInputRegister]
    · simp [ ServerIO, h, hi, hR, WriteReg, hs, f1, f2, f3, f4, f5, PointValueModbusCoil,
        PointValueModbusDiscreteInput, PointValueModbusHoldingRegister,
        PointValueModbusInputRegister]

/-! ## Role change and the first-pass flags (C9) -/

/-- `CheckPort` never touches `ioInitialized`. -/
theorem CheckPort_keeps_ioInitialized (env : Env) (bus : Modbus) (node : NodeEdge)
    (t : List Event) : (CheckPort env bus node t).state.ioInitialized = bus.ioInitialized := by
  unfold CheckPort
  rcases Points.Text node.Points "" PointTypeClientServer 0 with ⟨bt, ok1⟩
  rcases Points.Text node.Points "" PointTypePort 0 with ⟨pn, ok2⟩
  rcases Points.Value node.Points "" PointTypeBaud 0 with ⟨bd, ok3⟩
  rcases Points.Value node.Points "" PointTypeDebug 0 with ⟨dbg, ok4⟩
  rcases Points.Value node.Points "" PointTypeID 0 with ⟨idF, ok5⟩
  have hadopt : ∀ b id, (CheckPort.adopt bus b pn bd id dbg t).1.ioInitialized
      = bus.ioInitialized := by
    intro b id
    unfold CheckPort.adopt
    split
    · cases bus.port <;> rfl
    · rfl
  cases ok1 <;> cases ok2 <;> cases ok3 <;> simp only [Bool.not_true, Bool.not_false, if_true,
    Bool.false_eq_true, if_false]
  by_cases hs : bt = PointValueServer
  · cases ok5
    · simp [hs]
    · simp only [hs, beq_self_eq_true, if_true, Bool.not_true, Bool.false_eq_true, if_false]
      rw [(openPort_config env _ _).2.2.2.2.2]
      exact hadopt _ _
  · have hb : (bt == PointValueServer) = false := by simpa using hs
    simp only [hb, Bool.false_eq_true, if_false]
    rw [(openPort_config env _ _).2.2.2.2.2]
    exact hadopt _ _

/-- C9: the seeded server endpoint of scenario S4 is given the client role;
the port opens, the client engine is created, and the flag of "io1" is still
set.  Given the server role again, the endpoint gets a fresh server engine with
an empty store while the flag of "io1" is still set, so the next `ServerIO` on
the holding register "io1" is not a seeding pass: it writes nothing to the
store and returns the error of reading an unmapped register. -/
theorem CheckPort_role_change_keeps_flags :
    seededBus.busType = PointValueServer ∧
      roleChanged.res = Outcome.ok ∧
      roleChanged.state.busType = PointValueClient ∧
      roleChanged.state.port = some { handle := 1 } ∧
      roleChanged.state.client = some { port := { handle := 1 }, debug := 0 } ∧
      roleChanged.state.ioInitialized = ["io1"] ∧
      roleChangedBack.res = Outcome.ok ∧
      roleChangedBack.state.server =
        some { id := 7, port := { handle := 3 }, Regs := { regs := [], coils := [] } } ∧
      roleChangedBack.state.ioInitialized = ["io1"] ∧
      ( ServerIO calmEnv roleChangedBack.state int16IO roleChangedBack.trace).res =
        Outcome.error "register not found" ∧
      ( ServerIO calmEnv roleChangedBack.state int16IO roleChangedBack.trace).state =
        roleChangedBack.state := by
  have h1 : roleChanged =
      { state := { busType := PointValueClient, id := 7, portName := "/dev/x", baud := 9600,
                   port := some { handle := 1 },
                   client := some { port := { handle := 1 }, debug := 0 },
                   server := none, debugLevel := 0, ioInitialized := ["io1"] }
        trace := [Event.portClose 0, Event.serialOpen "/dev/x" 9600]
        res := Outcome.ok } := by
    simp [roleChanged, CheckPort, CheckPort.adopt, CheckPort.openPort, Points.Text,
      Points.Value, Points.find, clientNode, seededBus, serverBus, calmEnv, floatToInt,
      PointTypeClientServer, PointTypePort, PointTypeBaud, PointTypeID, PointTypeDebug,
      PointValueServer, PointValueClient]
  have h2 : roleChangedBack =
      { state := { busType := PointValueServer, id := 7, portName := "/dev/x", baud := 19200,
                   port := some { handle := 3 },
                   client := none,
                   server := some { id := 7, port := { handle := 3 },
                                    Regs := { regs := [], coils := [] } },
                   debugLevel := 0, ioInitialized := ["io1"] }
        trace := [Event.portClose 0, Event.serialOpen "/dev/x" 9600, Event.portClose 1,
                  Event.serialOpen "/dev/x" 19200, Event.listen 7 0]
        res := Outcome.ok } := by
    rw [roleChangedBack, h1]
    simp [CheckPort, CheckPort.adopt, CheckPort.openPort, Points.Text,
      Points.Value, Points.find, busNode19200, calmEnv, floatToInt, intToByte,
      PointTypeClientServer, PointTypePort, PointTypeBaud, PointTypeID, PointTypeDebug,
      PointValueServer, PointValueClient]
  rw [h2, h1]
  refine ⟨rfl, rfl, rfl, rfl, rfl, rfl, rfl, rfl, rfl, ?_, ?_⟩
  · simp [ ServerIO, ReadReg, Regs.ReadReg, int16IO, List.lookup, PointValueModbusDiscreteInput,
      PointValueModbusCoil, PointValueModbusInputRegister, PointValueModbusHoldingRegister,
      PointValueUINT16, PointValueINT16]
  · simp [ ServerIO, ReadReg, Regs.ReadReg, int16IO, List.lookup, PointValueModbusDiscreteInput,
      PointValueModbusCoil, PointValueModbusInputRegister, PointValueModbusHoldingRegister,
      PointValueUINT16, PointValueINT16]

/-! ## Engine and role (C10) -/

theorem sameEngines_refl (a : Modbus) : sameEngines a a := ⟨rfl, rfl, rfl, rfl⟩

theorem sameEngines_trans {a b c : Modbus} (h1 : sameEngines a b) (h2 : sameEngines b c) :
    sameEngines a c :=
  ⟨h1.1.trans h2.1, h1.2.1.trans h2.2.1, h1.2.2.1.trans h2.2.2.1, h1.2.2.2.trans h2.2.2.2⟩

theorem sameEngines_setInitialized (bus : Modbus) (id : String) :
    sameEngines (setInitialized bus id) bus := by
  unfold setInitialized
  split
  · exact sameEngines_refl bus
  · exact ⟨rfl, rfl, rfl, rfl⟩

theorem sameEngines_seedCoil (bus : Modbus) (a : Int) (v : Bool) :
    sameEngines (seedCoil bus a v).1 bus := by
  unfold seedCoil
  cases h : bus.server with
  | none => exact sameEngines_refl bus
  | some s => exact ⟨rfl, rfl, rfl, by simp [h]⟩

theorem sameEngines_WriteReg (env : Env) (bus : Modbus) (io : ModbusIO) :
    sameEngines (WriteReg env bus io).1 bus := by
  unfold WriteReg
  cases h : bus.server with
  | none => exact sameEngines_refl bus
  | some s =>
    simp only
    split
    · exact ⟨rfl, rfl, rfl, by simp [h]⟩
    · split
      · exact ⟨rfl, rfl, rfl, by simp [h]⟩
      · split
        · exact ⟨rfl, rfl, rfl, by simp [h]⟩
        · split
          · exact ⟨rfl, rfl, rfl, by simp [h]⟩
          · exact ⟨rfl, rfl, rfl, by simp [h]⟩

theorem sameEngines_ServerIO (env : Env) (bus : Modbus) (io : ModbusIO) (t : List Event) :
    sameEngines ( ServerIO env bus io t).state bus := by
  have h1 := sameEngines_seedCoil bus io.address (env.FloatToBool io.value)
  have h2 := sameEngines_WriteReg env bus io
  have h3 := sameEngines_trans (sameEngines_setInitialized
    (seedCoil bus io.address (env.FloatToBool io.value)).1 io.nodeID) h1
  have h4 := sameEngines_trans (sameEngines_setInitialized (WriteReg env bus io).1 io.nodeID) h2
  unfold ServerIO
  by_cases hi : io.nodeID ∈ bus.ioInitialized
  · simp only [hi, decide_True, Bool.not_true, Bool.false_eq_true, if_false]
    repeat' split
    all_goals first
      | exact sameEngines_refl _
      | simp_all
  · simp only [hi, decide_False, Bool.not_false, if_true]
    rcases hsc : seedCoil bus io.address (env.FloatToBool io.value) with ⟨b1, o1⟩
    rcases hwr : WriteReg env bus io with ⟨b2, o2⟩
    rw [hsc] at h1 h3
    rw [hwr] at h2 h4
    simp only at h1 h2 h3 h4
    cases o1 <;> cases o2 <;> simp only <;> repeat' split
    all_goals first
      | exact sameEngines_refl _
      | assumption

/-- `CheckPort` either returns early with a configuration error and the
endpoint as it was, or is the opening step after the comparison step. -/
theorem CheckPort_cases (env : Env) (bus : Modbus) (node : NodeEdge) (t : List Event) :
    (∃ msg, CheckPort env bus node t = { state := bus, trace := t, res := Outcome.error msg }) ∨
    ∃ bt pn bd id dbg, CheckPort env bus node t =
      CheckPort.openPort env (CheckPort.adopt bus bt pn bd id dbg t).1
        (CheckPort.adopt bus bt pn bd id dbg t).2 := by
  unfold CheckPort
  rcases Points.Text node.Points "" PointTypeClientServer 0 with ⟨bt, ok1⟩
  rcases Points.Text node.Points "" PointTypePort 0 with ⟨pn, ok2⟩
  rcases Points.Value node.Points "" PointTypeBaud 0 with ⟨bd, ok3⟩
  rcases Points.Value node.Points "" PointTypeDebug 0 with ⟨dbg, ok4⟩
  rcases Points.Value node.Points "" PointTypeID 0 with ⟨idF, ok5⟩
  cases ok1
  · exact Or.inl ⟨_, rfl⟩
  cases ok2
  · exact Or.inl ⟨_, rfl⟩
  cases ok3
  · exact Or.inl ⟨_, rfl⟩
  simp only [Bool.not_true, Bool.false_eq_true, if_false]
  by_cases hs : bt = PointValueServer
  · cases ok5
    · exact Or.inl ⟨"Must define modbus ID for server bus", by simp [hs]⟩
    · exact Or.inr ⟨bt, pn, bd, floatToInt idF, dbg, by simp [hs]⟩
  · exact Or.inr ⟨bt, pn, bd, bus.id, dbg, by simp [hs]⟩

theorem EngineMatchesRole_adopt (bus : Modbus) (bt pn : String) (bd : ℚ) (id : Int) (dbg : ℚ)
    (t : List Event) (h : EngineMatchesRole bus) :
    EngineMatchesRole (CheckPort.adopt bus bt pn bd id dbg t).1 := by
  unfold CheckPort.adopt
  split
  · intro hp
    cases hbp : bus.port <;> simp [hbp] at hp
  · exact h

theorem EngineMatchesRole_openPort (env : Env) (bus : Modbus) (t : List Event)
    (h : EngineMatchesRole bus) : EngineMatchesRole (CheckPort.openPort env bus t).state := by
  unfold CheckPort.openPort
  cases hp : bus.port with
  | some p => exact h
  | none =>
    simp only
    cases env.serialOpen t bus.portName bus.baud with
    | error e =>
      intro hp2
      simp [hp] at hp2
    | ok u =>
      by_cases hs : bus.busType = PointValueServer
      · simp only [hs, beq_self_eq_true, if_true]
        intro _
        exact ⟨fun _ => ⟨rfl, rfl⟩, fun hc => by simp [PointValueServer, PointValueClient] at hc⟩
      · have hb : (bus.busType == PointValueServer) = false := by simpa using hs
        by_cases hc : bus.busType = PointValueClient
        · simp only [hb, hc, beq_self_eq_true, if_true, Bool.false_eq_true, if_false]
          intro _
          exact ⟨fun h2 => by simp [PointValueServer, PointValueClient] at h2,
            fun _ => ⟨rfl, rfl⟩⟩
        · have hb2 : (bus.busType == PointValueClient) = false := by simpa using hc
          simp only [hb, hb2, Bool.false_eq_true, if_false]
          intro _
          exact ⟨fun h2 => absurd h2 hs, fun h2 => absurd h2 hc⟩

/-- `CheckPort` keeps the engine matching the role. -/
theorem EngineMatchesRole_CheckPort (env : Env) (bus : Modbus) (node : NodeEdge)
    (t : List Event) (h : EngineMatchesRole bus) :
    EngineMatchesRole (CheckPort env bus node t).state := by
  rcases CheckPort_cases env bus node t with ⟨msg, hE⟩ | ⟨bt, pn, bd, id, dbg, hE⟩
  · rw [hE]
    exact h
  · rw [hE]
    exact EngineMatchesRole_openPort env _ _ (EngineMatchesRole_adopt bus bt pn bd id dbg t h)

/-- When `CheckPort` returns nil the port is open. -/
theorem CheckPort_ok_port (env : Env) (bus : Modbus) (node : NodeEdge) (t : List Event)
    (h : (CheckPort env bus node t).res = Outcome.ok) :
    (CheckPort env bus node t).state.port.isSome = true := by
  rcases CheckPort_cases env bus node t with ⟨msg, hE⟩ | ⟨bt, pn, bd, id, dbg, hE⟩
  · rw [hE] at h
    simp at h
  · rw [hE] at h ⊢
    revert h
    generalize (CheckPort.adopt bus bt pn bd id dbg t).1 = b
    generalize (CheckPort.adopt bus bt pn bd id dbg t).2 = t1
    unfold CheckPort.openPort
    cases hp : b.port with
    | some p => simp [hp]
    | none =>
      simp only
      cases env.serialOpen t1 b.portName b.baud with
      | error e => simp
      | ok u =>
        intro _
        by_cases hs : (b.busType == PointValueServer) = true
        · simp [hs]
        · by_cases hc : (b.busType == PointValueClient) = true
          · simp [hs, hc]
          · simp [hs, hc]

theorem EngineMatchesRole_of_sameEngines {a b : Modbus} (hs : sameEngines a b)
    (h : EngineMatchesRole b) : EngineMatchesRole a := by
  obtain ⟨h1, h2, h3, h4⟩ := hs
  unfold EngineMatchesRole
  rw [h1, h2, h3, h4]
  intro hp
  obtain ⟨ha, hb⟩ := h hp
  refine ⟨ha, fun hc => ⟨(hb hc).1, ?_⟩⟩
  have := (hb hc).2
  cases hsa : a.server with
  | none => rfl
  | some s => simp [hsa, this] at h4

theorem EngineMatchesRole_NewModbus (node : NodeEdge) (bus : Modbus)
    (h : NewModbus node = Except.ok bus) : EngineMatchesRole bus := by
  have hp : bus.port = none := by
    revert h
    unfold NewModbus
    rcases Points.Text node.Points "" PointTypeClientServer 0 with ⟨bt, ok1⟩
    rcases Points.Text node.Points "" PointTypePort 0 with ⟨pn, ok2⟩
    rcases Points.Value node.Points "" PointTypeBaud 0 with ⟨bd, ok3⟩
    cases ok1 <;> cases ok2 <;> cases ok3 <;> simp
    intro h
    rw [← h]
  intro h2
  simp [hp] at h2

theorem EngineMatchesRole_run (c : Call) (bus : Modbus) (h : EngineMatchesRole bus) :
    EngineMatchesRole (c.run bus) := by
  cases c with
  | check env node t => exact EngineMatchesRole_CheckPort env bus node t h
  | server env io t =>
    exact EngineMatchesRole_of_sameEngines ( sameEngines_ServerIO env bus io t) h
  | client env io t => exact h

theorem EngineMatchesRole_runCalls (calls : List Call) (bus : Modbus)
    (h : EngineMatchesRole bus) : EngineMatchesRole (runCalls calls bus) := by
  induction calls generalizing bus with
  | nil => exact h
  | cons c rest ih => exact ih (c.run bus) (EngineMatchesRole_run c bus h)

theorem port_run_of_isPass (c : Call) (bus : Modbus) (hc : c.isPass = true) :
    (c.run bus).port = bus.port ∧ (c.run bus).busType = bus.busType := by
  cases c with
  | check env node t => simp [Call.isPass] at hc
  | server env io t =>
    exact ⟨( sameEngines_ServerIO env bus io t).1, ( sameEngines_ServerIO env bus io t).2.1⟩
  | client env io t => exact ⟨rfl, rfl⟩

theorem port_runCalls_of_isPass (calls : List Call) (bus : Modbus)
    (hc : ∀ c ∈ calls, c.isPass = true) :
    (runCalls calls bus).port = bus.port ∧ (runCalls calls bus).busType = bus.busType := by
  induction calls generalizing bus with
  | nil => exact ⟨rfl, rfl⟩
  | cons c rest ih =>
    have h1 := port_run_of_isPass c bus (hc c (by simp))
    have h2 := ih (c.run bus) (fun x hx => hc x (by simp [hx]))
    exact ⟨h2.1.trans h1.1, h2.2.trans h1.2⟩
/-- C10: in every endpoint state reached from `NewModbus` by a sequence of
`CheckPort`, `ServerIO` and `ClientIO` calls, if the port is open then a server
endpoint has a server engine and no client engine and a client endpoint has a
client engine and no server engine; and in the state in which `Update`
dispatches, that is after a `CheckPort` that returned nil and any number of IO
passes, a server endpoint has a server engine and a client endpoint has a
client engine. -/
theorem engine_matches_role (node : NodeEdge) (bus0 : Modbus) (calls : List Call)
    (hnew : NewModbus node = Except.ok bus0) :
    ((runCalls calls bus0).port.isSome = true →
      ((runCalls calls bus0).busType = PointValueServer →
        (runCalls calls bus0).server.isSome = true ∧ (runCalls calls bus0).client = none) ∧
      ((runCalls calls bus0).busType = PointValueClient →
        (runCalls calls bus0).client.isSome = true ∧ (runCalls calls bus0).server = none)) ∧
    (∀ (env : Env) (node1 : NodeEdge) (t : List Event) (passes : List Call),
      (CheckPort env (runCalls calls bus0) node1 t).res = Outcome.ok →
      (∀ c ∈ passes, c.isPass = true) →
      ((runCalls passes (CheckPort env (runCalls calls bus0) node1 t).state).busType
          = PointValueServer →
        (runCalls passes (CheckPort env (runCalls calls bus0) node1 t).state).server.isSome
          = true) ∧
      ((runCalls passes (CheckPort env (runCalls calls bus0) node1 t).state).busType
          = PointValueClient →
        (runCalls passes (CheckPort env (runCalls calls bus0) node1 t).state).client.isSome
          = true)) := by
  have hinv : EngineMatchesRole (runCalls calls bus0) :=
    EngineMatchesRole_runCalls calls bus0 (EngineMatchesRole_NewModbus node bus0 hnew)
  refine ⟨hinv, ?_⟩
  intro env node1 t passes hok hpass
  have h1 : EngineMatchesRole (CheckPort env (runCalls calls bus0) node1 t).state :=
    EngineMatchesRole_CheckPort env _ node1 t hinv
  have h2 := EngineMatchesRole_runCalls passes _ h1
  have hport := port_runCalls_of_isPass passes
    (CheckPort env (runCalls calls bus0) node1 t).state hpass
  have hopen : (runCalls passes (CheckPort env (runCalls calls bus0) node1 t).state).port.isSome
      = true := by
    rw [hport.1]
    exact CheckPort_ok_port env _ node1 t hok
  exact ⟨fun h => ((h2 hopen).1 h).1, fun h => ((h2 hopen).2 h).1⟩

/-- The server bus node of scenario S6: after `NewModbus`, `CheckPort` and a
first `ServerIO` pass the port is open and the engine matches the role. -/
theorem engine_matches_role_witness :
    NewModbus busNode19200 = Except.ok newServerBus ∧
      (runCalls [Call.check calmEnv busNode19200 [], Call.server calmEnv int16IO []]
        newServerBus).port.isSome = true ∧
      EngineMatchesRole
        (runCalls [Call.check calmEnv busNode19200 [], Call.server calmEnv int16IO []]
          newServerBus) := by
  have h : NewModbus busNode19200 = Except.ok newServerBus := by
    simp [NewModbus, Points.Text, Points.Value, Points.find, busNode19200, newServerBus,
      floatToInt, PointTypeClientServer, PointTypePort, PointTypeBaud, PointTypeID]
  refine ⟨h, ?_, (engine_matches_role busNode19200 newServerBus _ h).1⟩
  have hp := port_runCalls_of_isPass [Call.server calmEnv int16IO []]
    (CheckPort calmEnv newServerBus busNode19200 []).state (by simp [Call.isPass])
  have hE : runCalls [Call.check calmEnv busNode19200 [], Call.server calmEnv int16IO []]
      newServerBus = runCalls [Call.server calmEnv int16IO []]
        (CheckPort calmEnv newServerBus busNode19200 []).state := rfl
  rw [hE, hp.1]
  apply CheckPort_ok_port
  simp [CheckPort, CheckPort.adopt, CheckPort.openPort, Points.Text, Points.Value,
    Points.find, busNode19200, newServerBus, calmEnv, floatToInt,
    PointTypeClientServer, PointTypePort, PointTypeBaud, PointTypeID, PointTypeDebug,
    PointValueServer, PointValueClient]

/-! ## Removal of endpoints (C11) -/

/-- The removal loop panics exactly when one of the endpoints it has to close,
one whose id was not found, has a nil port. -/
theorem remove_panic_iff (found : List String) (m : List (String × Modbus)) (t : List Event) :
    (Update.remove found m t).res = Outcome.panic ↔
      ∃ p ∈ m, p.1 ∉ found ∧ p.2.port = none := by
  induction m generalizing t with
  | nil => simp [Update.remove]
  | cons p rest ih =>
    obtain ⟨k, bus⟩ := p
    by_cases hk : k ∈ found
    · simp only [Update.remove, hk, if_true, ih t, List.mem_cons, exists_eq_or_imp,
        not_true_eq_false, false_and, false_or]
    · cases hp : bus.port with
      | none => simp [Update.remove, hk, hp]
      | some port =>
        simp only [Update.remove, hk, if_false, hp, ih, List.mem_cons, exists_eq_or_imp,
          not_false_eq_true, true_and, reduceCtorEq, false_or]

/-- C11 on a server bus node with no id point: at the first tick `NewModbus`
succeeds and `CheckPort` fails before any port is opened, so the manager holds
the endpoint "bus1" with a nil port and `Update` returns nil; at the second
tick the node is gone and the removal loop calls `Close` on that nil port. -/
theorem removal_closes_nil_port :
    (firstTick serverNodeNoId true).res = Outcome.ok ∧
      ((firstTick serverNodeNoId true).state.busses.map fun p => (p.1, p.2.port))
        = [("bus1", none)] ∧
      (firstTick serverNodeNoId true).trace = [Event.nodeChildren "root" "modbus"] ∧
      (secondTick serverNodeNoId true).res = Outcome.panic := by
  have h1 : firstTick serverNodeNoId true =
      { state := { busses := [("bus1",
          { busType := PointValueServer, id := 0, portName := "/dev/x", baud := 9600,
            port := none, client := none, server := none, debugLevel := 0,
            ioInitialized := [] })] }
        trace := [Event.nodeChildren "root" "modbus"]
        res := Outcome.ok } := by
    simp [firstTick, Update, Update.busLoop, Update.busStep, Update.remove, vanishingEnv,
      calmEnv, NewModbusManager, NewModbus, CheckPort, Points.Text, Points.Value, Points.find,
      serverNodeNoId, List.lookup, storeBus, floatToInt, NodeTypeModbus,
      PointTypeClientServer, PointTypePort, PointTypeBaud, PointTypeID, PointTypeDebug,
      PointValueServer]
  refine ⟨by rw [h1], by rw [h1]; rfl, by rw [h1], ?_⟩
  rw [secondTick, h1]
  simp [Update, Update.busLoop, Update.remove, vanishingEnv, calmEnv, NodeTypeModbus]

/-- C11 on a port that cannot be opened: the endpoint is created, `CheckPort`
fails in `serial.Open`, the port stays nil, and the removal at the second tick
calls `Close` on the nil port. -/
theorem removal_closes_unopened_port :
    (firstTick busNode19200 false).res = Outcome.ok ∧
      ((firstTick busNode19200 false).state.busses.map fun p => (p.1, p.2.port))
        = [("bus1", none)] ∧
      (secondTick busNode19200 false).res = Outcome.panic := by
  have h1 : firstTick busNode19200 false =
      { state := { busses := [("bus1",
          { busType := PointValueServer, id := 7, portName := "/dev/x", baud := 19200,
            port := none, client := none, server := none, debugLevel := 0,
            ioInitialized := [] })] }
        trace := [Event.nodeChildren "root" "modbus", Event.serialOpen "/dev/x" 19200]
        res := Outcome.ok } := by
    simp [firstTick, Update, Update.busLoop, Update.busStep, Update.remove, vanishingEnv,
      calmEnv, NewModbusManager, NewModbus, CheckPort, CheckPort.adopt, CheckPort.openPort,
      Points.Text, Points.Value, Points.find,
      busNode19200, List.lookup, storeBus, floatToInt, NodeTypeModbus,
      PointTypeClientServer, PointTypePort, PointTypeBaud, PointTypeID, PointTypeDebug,
      PointValueServer]
  refine ⟨by rw [h1], by rw [h1]; rfl, ?_⟩
  rw [secondTick, h1]
  simp [Update, Update.busLoop, Update.remove, vanishingEnv, calmEnv, NodeTypeModbus]

end SimpleIot
